import Mathlib

set_option maxHeartbeats 1000000

/-!
Verification development for the NatureServe species report tool
(`src/app.py`).  The Python program is shallowly embedded: Python values
decoded from JSON become the inductive type `PyVal`, fallible Python code
(code that can raise) returns `Except String _`, and the network is an
explicit `HttpResult` input.  Floating-point JSON numbers are outside the
embedding (the parser rejects them), and Python strings are restricted to
sequences of Unicode scalar values.
-/

/-- Python values as produced by `json.loads`: `None`, booleans, integers,
strings, lists, and (insertion-ordered) dicts with string keys.  Dicts are
modelled as association lists; building them with `dictInsert` keeps keys
unique, as in Python. -/
inductive PyVal where
  | none : PyVal
  | bool : Bool → PyVal
  | int : Int → PyVal
  | str : String → PyVal
  | list : List PyVal → PyVal
  | dict : List (String × PyVal) → PyVal

/-- `isinstance(v, list)`. -/
def pyIsList : PyVal → Bool
  | .list _ => true
  | _ => false

/-- `isinstance(v, dict)`. -/
def pyIsDict : PyVal → Bool
  | .dict _ => true
  | _ => false

/-- Python truthiness (`bool(v)`): `None`, `False`, `0`, `""`, `[]`, `{}`
are falsy, everything else truthy. -/
def pyTruthy : PyVal → Bool
  | .none => false
  | .bool b => b
  | .int n => n != 0
  | .str s => s != ""
  | .list xs => !xs.isEmpty
  | .dict kvs => !kvs.isEmpty

/-- `d.get(k, dflt)` on a dict known to be a dict (association-list lookup,
first match; lists built by `dictInsert` have unique keys). -/
def dictGetD (kvs : List (String × PyVal)) (k : String) (dflt : PyVal) : PyVal :=
  match kvs.find? (fun kv => kv.1 == k) with
  | some kv => kv.2
  | Option.none => dflt

/-- Calling `.get(k)` on an arbitrary Python value: succeeds (with default
`None`) on a dict, raises `AttributeError` on anything else. -/
def pyGet (v : PyVal) (k : String) : Except String PyVal :=
  match v with
  | .dict kvs => .ok (dictGetD kvs k .none)
  | _ => .error "AttributeError: object has no attribute get"

/-- Calling `.get(k, dflt)` on an arbitrary Python value. -/
def pyGetD (v : PyVal) (k : String) (dflt : PyVal) : Except String PyVal :=
  match v with
  | .dict kvs => .ok (dictGetD kvs k dflt)
  | _ => .error "AttributeError: object has no attribute get"

/-- Python `a or b`. -/
def pyOr (a b : PyVal) : PyVal := if pyTruthy a then a else b

/-- Decimal digits, most significant first; structural recursion on a
fuel bound (any fuel above the argument suffices). -/
def natDigitsAux (fuel : Nat) (n : Nat) : List Char :=
  match fuel with
  | 0 => []
  | fuel + 1 =>
    if n < 10 then [Char.ofNat (48 + n)]
    else natDigitsAux fuel (n / 10) ++ [Char.ofNat (48 + n % 10)]

/-- Decimal digits of a natural number, most significant first
(`str(n)` for `n ≥ 0`). -/
def natDigits (n : Nat) : List Char := natDigitsAux (n + 1) n

/-- `str(n)` for a natural number. -/
def natStr (n : Nat) : String := String.mk (natDigits n)

/-- `str(n)` for a Python integer. -/
def intStr (n : Int) : String :=
  if n < 0 then "-" ++ natStr n.natAbs else natStr n.natAbs

/-- Lowercase hexadecimal digit character for `d < 16`. -/
def hexDigitChar (d : Nat) : Char :=
  if d < 10 then Char.ofNat (48 + d) else Char.ofNat (87 + d)

/-- Two lowercase hex digits for a byte. -/
def hex2 (n : Nat) : List Char := [hexDigitChar (n / 16 % 16), hexDigitChar (n % 16)]

/-- Four lowercase hex digits for `n < 0x10000`. -/
def hex4 (n : Nat) : List Char :=
  [hexDigitChar (n / 4096 % 16), hexDigitChar (n / 256 % 16),
   hexDigitChar (n / 16 % 16), hexDigitChar (n % 16)]

/-- The double-quote character. -/
def quoteChar : Char := Char.ofNat 34

/-- The single-quote character. -/
def aposChar : Char := Char.ofNat 39

/-- Modelled from CPython `repr` of one character of a string, with quote
character `q`. -/
def pyReprEscapeChar (q : Char) (c : Char) : List Char :=
  if c = '\\' then ['\\', '\\']
  else if c = q then ['\\', q]
  else if c = '\n' then ['\\', 'n']
  else if c = '\r' then ['\\', 'r']
  else if c = '\t' then ['\\', 't']
  else if c.toNat < 32 ∨ c.toNat = 127 then '\\' :: 'x' :: hex2 c.toNat
  else [c]

/-- Modelled from CPython `repr(s)` for a string: single quotes unless the
string contains a single quote and no double quote. -/
def strRepr (s : String) : String :=
  let q := if s.data.contains aposChar && !(s.data.contains quoteChar)
           then quoteChar else aposChar
  String.mk (q :: (s.data.flatMap (pyReprEscapeChar q)) ++ [q])

mutual
/-- Modelled from CPython `repr` on JSON-decodable values. -/
def pyRepr : PyVal → String
  | .none => "None"
  | .bool true => "True"
  | .bool false => "False"
  | .int n => intStr n
  | .str s => strRepr s
  | .list xs => "[" ++ pyReprList xs ++ "]"
  | .dict kvs => "\x7b" ++ pyReprDict kvs ++ "\x7d"

/-- `repr` of the comma-separated elements of a list. -/
def pyReprList : List PyVal → String
  | [] => ""
  | [x] => pyRepr x
  | x :: y :: t => pyRepr x ++ ", " ++ pyReprList (y :: t)

/-- `repr` of the comma-separated members of a dict. -/
def pyReprDict : List (String × PyVal) → String
  | [] => ""
  | [(k, v)] => strRepr k ++ ": " ++ pyRepr v
  | (k, v) :: y :: t => strRepr k ++ ": " ++ pyRepr v ++ ", " ++ pyReprDict (y :: t)
end

/-- Python `str(v)`: identity on strings, `repr` on containers,
the usual text for scalars. -/
def pyStr : PyVal → String
  | .str s => s
  | .bool true => "True"
  | .bool false => "False"
  | .none => "None"
  | .int n => intStr n
  | .list xs => pyRepr (.list xs)
  | .dict kvs => pyRepr (.dict kvs)

/-! ### Model of `datetime.fromisoformat` / `strftime`

`format_last_modified` (app.py lines 15-24) calls into CPython's
`datetime`.  The library functions are modelled here on the grammar
`YYYY-MM-DD[<sep>HH[:MM[:SS]][±HH:MM]]` (fractional seconds and other
extended ISO forms are outside the model). -/

/-- A parsed datetime: calendar fields plus an optional UTC offset in
minutes (`none` = naive). -/
structure PyDateTime where
  year : Nat
  month : Nat
  day : Nat
  hour : Nat
  minute : Nat
  second : Nat
  tzOffsetMinutes : Option Int
deriving DecidableEq

/-- Digit value of a character, if it is a decimal digit. -/
def digitVal? (c : Char) : Option Nat :=
  if c.isDigit then some (c.toNat - 48) else Option.none

/-- Parse exactly two decimal digits. -/
def parse2 : List Char → Option (Nat × List Char)
  | a :: b :: rest => do
      let x ← digitVal? a
      let y ← digitVal? b
      pure (10 * x + y, rest)
  | _ => Option.none

/-- Parse exactly four decimal digits. -/
def parse4 : List Char → Option (Nat × List Char)
  | a :: b :: c :: d :: rest => do
      let x ← digitVal? a
      let y ← digitVal? b
      let z ← digitVal? c
      let w ← digitVal? d
      pure (1000 * x + 100 * y + 10 * z + w, rest)
  | _ => Option.none

/-- Consume one expected character. -/
def expectChar (c : Char) : List Char → Option (List Char)
  | x :: rest => if x = c then some rest else Option.none
  | [] => Option.none

/-- Gregorian leap year. -/
def isLeap (y : Nat) : Bool := (y % 4 == 0 && y % 100 != 0) || y % 400 == 0

/-- Days in a month. -/
def daysInMonth (y m : Nat) : Nat :=
  match m with
  | 1 => 31 | 2 => if isLeap y then 29 else 28 | 3 => 31 | 4 => 30
  | 5 => 31 | 6 => 30 | 7 => 31 | 8 => 31 | 9 => 30 | 10 => 31
  | 11 => 30 | 12 => 31 | _ => 0

/-- Parse `YYYY-MM-DD`. -/
def parseDate (cs : List Char) : Option (Nat × Nat × Nat × List Char) := do
  let (y, cs1) ← parse4 cs
  let cs2 ← expectChar '-' cs1
  let (mo, cs3) ← parse2 cs2
  let cs4 ← expectChar '-' cs3
  let (d, cs5) ← parse2 cs4
  pure (y, mo, d, cs5)

/-- Parse `HH[:MM[:SS]]`. -/
def parseTime (cs : List Char) : Option (Nat × Nat × Nat × List Char) := do
  let (h, cs1) ← parse2 cs
  match cs1 with
  | ':' :: cs2 => do
      let (mi, cs3) ← parse2 cs2
      match cs3 with
      | ':' :: cs4 => do
          let (se, cs5) ← parse2 cs4
          pure (h, mi, se, cs5)
      | _ => pure (h, mi, 0, cs3)
  | _ => pure (h, 0, 0, cs1)

/-- Parse an optional `±HH:MM` UTC offset (empty input means naive). -/
def parseOffset (cs : List Char) : Option (Option Int × List Char) :=
  match cs with
  | [] => some (Option.none, [])
  | c :: cs1 =>
    if c = '+' ∨ c = '-' then do
      let (oh, cs2) ← parse2 cs1
      let cs3 ← expectChar ':' cs2
      let (om, cs4) ← parse2 cs3
      if oh ≤ 23 ∧ om ≤ 59 then
        let total : Int := ((oh * 60 + om : Nat) : Int)
        some (some (if c = '-' then -total else total), cs4)
      else Option.none
    else Option.none

/-- Modelled from CPython `datetime.fromisoformat`, restricted to
`YYYY-MM-DD[<sep>HH[:MM[:SS]][±HH:MM]]` with field validation; returns
`none` where CPython raises `ValueError`. -/
def fromisoformat (s : String) : Option PyDateTime := do
  let (y, mo, d, rest) ← parseDate s.data
  if 1 ≤ y ∧ y ≤ 9999 ∧ 1 ≤ mo ∧ mo ≤ 12 ∧ 1 ≤ d ∧ d ≤ daysInMonth y mo then
    match rest with
    | [] => pure ⟨y, mo, d, 0, 0, 0, Option.none⟩
    | _sep :: timeCs => do
        let (h, mi, se, rest2) ← parseTime timeCs
        if h ≤ 23 ∧ mi ≤ 59 ∧ se ≤ 59 then
          let (tz, rest3) ← parseOffset rest2
          match rest3 with
          | [] => pure ⟨y, mo, d, h, mi, se, tz⟩
          | _ => Option.none
        else Option.none
  else Option.none

/-- English month name (`%B`). -/
def monthName : Nat → String
  | 1 => "January" | 2 => "February" | 3 => "March" | 4 => "April"
  | 5 => "May" | 6 => "June" | 7 => "July" | 8 => "August"
  | 9 => "September" | 10 => "October" | 11 => "November" | 12 => "December"
  | _ => ""

/-- Two-digit zero-padded number. -/
def pad2 (n : Nat) : String := if n < 10 then "0" ++ natStr n else natStr n

/-- `%Z`: empty for a naive datetime, `UTC` for offset zero,
`UTC±HH:MM` otherwise (CPython `timezone.tzname`). -/
def tzName : Option Int → String
  | Option.none => ""
  | some off =>
    if off = 0 then "UTC"
    else "UTC" ++ (if off < 0 then "-" else "+")
         ++ pad2 (off.natAbs / 60) ++ ":" ++ pad2 (off.natAbs % 60)

/-- Modelled from CPython `dt.strftime("%B %d, %Y, %I:%M:%S %p %Z")`. -/
def strftimeReadable (dt : PyDateTime) : String :=
  let hr12 := if dt.hour % 12 = 0 then 12 else dt.hour % 12
  let ampm := if dt.hour < 12 then "AM" else "PM"
  monthName dt.month ++ " " ++ pad2 dt.day ++ ", " ++ natStr dt.year ++ ", "
    ++ pad2 hr12 ++ ":" ++ pad2 dt.minute ++ ":" ++ pad2 dt.second
    ++ " " ++ ampm ++ " " ++ tzName dt.tzOffsetMinutes

/-- Modelled from Python `s.replace(pat, rep)` for a nonempty pattern:
scan left to right, replacing non-overlapping occurrences greedily.  Fuel
is structural; the input length suffices. -/
def replaceAux (fuel : Nat) (pat rep cs : List Char) : List Char :=
  match fuel with
  | 0 => cs
  | fuel + 1 =>
    match cs with
    | [] => []
    | c :: rest =>
      if pat.isPrefixOf (c :: rest) then
        rep ++ replaceAux fuel pat rep ((c :: rest).drop pat.length)
      else c :: replaceAux fuel pat rep rest

/-- Python `s.replace(pat, rep)`. -/
def strReplace (s pat rep : String) : String :=
  String.mk (replaceAux s.data.length pat.data rep.data s.data)

/-- `format_last_modified` (app.py lines 15-24) on the Python value found
under `lastModified`: falsy input returns `None`; a string is rewritten
(`"Z"` → `"+00:00"`), parsed and reformatted, with any exception caught
and the original value returned; a truthy non-string raises
`AttributeError` inside the `try`, which is caught, returning the value. -/
def format_last_modified (last_modified : PyVal) : PyVal :=
  if pyTruthy last_modified = false then .none
  else match last_modified with
    | .str s =>
        match fromisoformat (strReplace s "Z" "+00:00") with
        | some dt => .str (strftimeReadable dt)
        | Option.none => .str s
    | v => v

/-! ### The field extractor (app.py lines 27-147) -/

/-- One iteration of the collection loop of
`extract_habitat_descriptions` (app.py lines 45-51): a non-dict entry is
skipped; for a dict entry the nested habitat object must be a dict and
its description truthy for `str(desc)` to be collected. -/
def habitatDescOf (item : PyVal) (habitat_key desc_key : String) : List String :=
  match item with
  | .dict kvs =>
    match dictGetD kvs habitat_key .none with
    | .dict hkvs =>
      let desc := dictGetD hkvs desc_key .none
      if pyTruthy desc then [pyStr desc] else []
    | _ => []
  | _ => []

/-- The collection loop of `extract_habitat_descriptions` (app.py lines
44-51). -/
def habitatDescs (xs : List PyVal) (habitat_key desc_key : String) : List String :=
  match xs with
  | [] => []
  | item :: rest => habitatDescOf item habitat_key desc_key ++ habitatDescs rest habitat_key desc_key

/-- Python `sep.join(parts)`. -/
def joinSep (sep : String) : List String → String
  | [] => ""
  | [x] => x
  | x :: y :: t => x ++ sep ++ joinSep sep (y :: t)

/-- `extract_habitat_descriptions` (app.py lines 27-53): `None` when the
argument is falsy or not a list, otherwise the collected descriptions
joined with `", "`, or `None` when none were collected. -/
def extract_habitat_descriptions (habitat_list : PyVal) (habitat_key desc_key : String) : PyVal :=
  if pyTruthy habitat_list = false || !pyIsList habitat_list
  then .none
  else match habitat_list with
    | .list xs =>
        let descriptions := habitatDescs xs habitat_key desc_key
        if descriptions.isEmpty then .none
        else .str (joinSep ", " descriptions)
    | _ => .none

/-- The empty Python dict `{}`. -/
def emptyDict : PyVal := .dict []

/-- The habitat configuration table (app.py lines 85-128):
`(api_key, habitat_key, desc_key, output_key)`. -/
def habitat_types : List (String × String × String × String) :=
  [("speciesMarineHabitats", "marineHabitat", "marineHabitatDescEn", "marineHabitats"),
   ("speciesTerrestrialHabitats", "terrestrialHabitat", "terrestrialHabitatDescEn", "terrestrialHabitats"),
   ("speciesRiverineHabitats", "riverineHabitat", "riverineHabitatDescEn", "riverineHabitats"),
   ("speciesPalustrineHabitats", "palustrineHabitat", "palustrineHabitatDescEn", "palustrineHabitats"),
   ("speciesLacustrineHabitats", "lacustrineHabitat", "lacustrineHabitatDescEn", "lacustrineHabitats"),
   ("speciesSubterraneanHabitats", "subterraneanHabitat", "subterraneanHabitatDescEn", "subterraneanHabitats"),
   ("speciesEstuarineHabitats", "estuarineHabitat", "estuarineHabitatDescEn", "estuarineHabitats")]

/-- `extract_data` (app.py lines 56-147) on a decoded top-level mapping.
Each `.get` on a value that may not be a dict is a `pyGet`/`pyGetD` in the
`Except` monad: the `AttributeError` CPython raises there propagates as
`.error`.  The result is the extracted dict as an ordered key/value list. -/
def extract_data (full_data : List (String × PyVal)) : Except String (List (String × PyVal)) := do
  let species_chars := pyOr (dictGetD full_data "speciesCharacteristics" emptyDict) emptyDict
  let species_global := pyOr (dictGetD full_data "speciesGlobal" emptyDict) emptyDict
  let rank_info := pyOr (dictGetD full_data "rankInfo" emptyDict) emptyDict
  let range_extent := pyOr (← pyGetD rank_info "rangeExtent" emptyDict) emptyDict
  let last_modified_readable := format_last_modified (dictGetD full_data "lastModified" .none)
  let speciesGlobalElementGlobalId ← pyGet species_global "elementGlobalId"
  let habitatComments ← pyGet species_chars "habitatComments"
  let rangeExtentDesc ← pyGet range_extent "rangeExtentDescEn"
  let extracted : List (String × PyVal) :=
    [("elementGlobalId", dictGetD full_data "elementGlobalId" .none),
     ("uniqueId", dictGetD full_data "uniqueId" .none),
     ("speciesGlobalElementGlobalId", speciesGlobalElementGlobalId),
     ("primaryCommonName", dictGetD full_data "primaryCommonName" .none),
     ("scientificName", dictGetD full_data "scientificName" .none),
     ("lastModified", last_modified_readable),
     ("grankReasons", dictGetD full_data "grankReasons" .none),
     ("habitatComments", habitatComments),
     ("rangeExtent", rangeExtentDesc)]
  habitat_types.foldlM (fun acc ht => do
      let habitat_data ← pyGet species_chars ht.1
      let descriptions := extract_habitat_descriptions habitat_data ht.2.1 ht.2.2.1
      pure (acc ++ [(ht.2.2.2, descriptions)])) extracted

/-! ### Model of `json.dumps` (default options: `ensure_ascii=True`,
separators `", "` and `": "`) -/

/-- The left-brace character. -/
def lbraceChar : Char := '\x7b'

/-- The right-brace character. -/
def rbraceChar : Char := '\x7d'

/-- Modelled from CPython `json.dumps` ASCII escaping of one character:
short escapes for the common controls, `\uXXXX` for other controls and all
non-ASCII (astral characters become a surrogate pair). -/
def jsonEscapeChar (c : Char) : List Char :=
  if c = '\\' then ['\\', '\\']
  else if c = quoteChar then ['\\', quoteChar]
  else if c = '\n' then ['\\', 'n']
  else if c = '\t' then ['\\', 't']
  else if c = '\r' then ['\\', 'r']
  else if c.toNat = 8 then ['\\', 'b']
  else if c.toNat = 12 then ['\\', 'f']
  else if c.toNat < 32 then '\\' :: 'u' :: hex4 c.toNat
  else if c.toNat ≤ 126 then [c]
  else if c.toNat < 65536 then '\\' :: 'u' :: hex4 c.toNat
  else ('\\' :: 'u' :: hex4 (55296 + (c.toNat - 65536) / 1024))
       ++ ('\\' :: 'u' :: hex4 (56320 + (c.toNat - 65536) % 1024))

/-- Escape every character of a string body. -/
def jsonEscapeString : List Char → List Char
  | [] => []
  | c :: rest => jsonEscapeChar c ++ jsonEscapeString rest

/-- A JSON string literal: quote, escaped body, quote. -/
def jsonQuoteString (s : String) : List Char :=
  quoteChar :: (jsonEscapeString s.data ++ [quoteChar])

mutual
/-- `json.dumps` of a value, as a character list. -/
def dumpsVal : PyVal → List Char
  | .none => "null".data
  | .bool true => "true".data
  | .bool false => "false".data
  | .int n => (intStr n).data
  | .str s => jsonQuoteString s
  | .list xs => '[' :: dumpsElems xs
  | .dict kvs => lbraceChar :: dumpsMembers kvs

/-- Elements of a serialized array, separated with `", "`, closed with `]`. -/
def dumpsElems : List PyVal → List Char
  | [] => [']']
  | [x] => dumpsVal x ++ [']']
  | x :: y :: t => dumpsVal x ++ ',' :: ' ' :: dumpsElems (y :: t)

/-- Members of a serialized object, `"key": value` separated with `", "`. -/
def dumpsMembers : List (String × PyVal) → List Char
  | [] => [rbraceChar]
  | [(k, v)] => jsonQuoteString k ++ ':' :: ' ' :: (dumpsVal v ++ [rbraceChar])
  | (k, v) :: y :: t =>
      jsonQuoteString k ++ ':' :: ' ' :: (dumpsVal v ++ ',' :: ' ' :: dumpsMembers (y :: t))
end

/-- `json.dumps(v)`. -/
def json_dumps (v : PyVal) : String := String.mk (dumpsVal v)

/-- Keys pairwise distinct. -/
def keysUnique : List String → Bool
  | [] => true
  | k :: rest => !(rest.contains k) && keysUnique rest

mutual
/-- Well-formed Python value: every dict (recursively) has pairwise
distinct keys — true of every value a Python `dict` can actually hold. -/
def pyWF : PyVal → Bool
  | .none => true
  | .bool _ => true
  | .int _ => true
  | .str _ => true
  | .list xs => pyWFList xs
  | .dict kvs => keysUnique (kvs.map Prod.fst) && pyWFDict kvs

/-- All elements well-formed. -/
def pyWFList : List PyVal → Bool
  | [] => true
  | x :: t => pyWF x && pyWFList t

/-- All member values well-formed. -/
def pyWFDict : List (String × PyVal) → Bool
  | [] => true
  | (_, v) :: t => pyWF v && pyWFDict t
end

/-! ### Model of `json.loads` (strict mode; float literals and lone
surrogate escapes are rejected as outside the embedding) -/

/-- JSON whitespace. -/
def isJsonWs (c : Char) : Bool := c = ' ' || c = '\t' || c = '\n' || c = '\r'

/-- Skip JSON whitespace. -/
def skipWs (cs : List Char) : List Char := cs.dropWhile isJsonWs

/-- Hexadecimal digit value (either case). -/
def hexVal? (c : Char) : Option Nat :=
  if '0' ≤ c ∧ c ≤ '9' then some (c.toNat - 48)
  else if 'a' ≤ c ∧ c ≤ 'f' then some (c.toNat - 87)
  else if 'A' ≤ c ∧ c ≤ 'F' then some (c.toNat - 55)
  else Option.none

/-- Parse exactly four hex digits. -/
def parseHex4 : List Char → Option (Nat × List Char)
  | a :: b :: c :: d :: rest => do
      let x ← hexVal? a
      let y ← hexVal? b
      let z ← hexVal? c
      let w ← hexVal? d
      pure (4096 * x + 256 * y + 16 * z + w, rest)
  | _ => Option.none

/-- Prepend a character to the string being accumulated by
`parseStringBody`. -/
def consFirst (c : Char) :
    Except String (List Char × List Char) → Except String (List Char × List Char)
  | .ok (s, rest) => .ok (c :: s, rest)
  | .error e => .error e

/-- Parse the body of a JSON string literal after the opening quote, up to
and including the closing quote.  Escapes follow `json.loads` in strict
mode; a surrogate-pair escape is recombined into one astral character; a
lone surrogate escape (representable in Python, not as a Lean `Char`) is
rejected as outside the embedding. -/
def parseStringBody (fuel : Nat) (cs : List Char) : Except String (List Char × List Char) :=
  match fuel with
  | 0 => .error "Unterminated string"
  | fuel + 1 =>
    match cs with
    | [] => .error "Unterminated string"
    | c :: rest =>
      if c = quoteChar then .ok ([], rest)
      else if c = '\\' then
        match rest with
        | [] => .error "Unterminated string"
        | e :: rest2 =>
          if e = quoteChar then consFirst quoteChar (parseStringBody fuel rest2)
          else if e = '\\' then consFirst '\\' (parseStringBody fuel rest2)
          else if e = '/' then consFirst '/' (parseStringBody fuel rest2)
          else if e = 'b' then consFirst (Char.ofNat 8) (parseStringBody fuel rest2)
          else if e = 'f' then consFirst (Char.ofNat 12) (parseStringBody fuel rest2)
          else if e = 'n' then consFirst '\n' (parseStringBody fuel rest2)
          else if e = 'r' then consFirst '\r' (parseStringBody fuel rest2)
          else if e = 't' then consFirst '\t' (parseStringBody fuel rest2)
          else if e = 'u' then
            match parseHex4 rest2 with
            | Option.none => .error "Invalid hex escape"
            | some (n, rest3) =>
              if 55296 ≤ n ∧ n ≤ 56319 then
                match rest3 with
                | b1 :: b2 :: rest4 =>
                  if b1 = '\\' ∧ b2 = 'u' then
                    match parseHex4 rest4 with
                    | some (m, rest5) =>
                      if 56320 ≤ m ∧ m ≤ 57343 then
                        consFirst (Char.ofNat (65536 + (n - 55296) * 1024 + (m - 56320)))
                          (parseStringBody fuel rest5)
                      else .error "lone surrogate escape outside embedding"
                    | Option.none => .error "lone surrogate escape outside embedding"
                  else .error "lone surrogate escape outside embedding"
                | _ => .error "lone surrogate escape outside embedding"
              else if 56320 ≤ n ∧ n ≤ 57343 then
                .error "lone surrogate escape outside embedding"
              else consFirst (Char.ofNat n) (parseStringBody fuel rest3)
          else .error "Invalid escape"
      else if c.toNat < 32 then .error "Invalid control character"
      else consFirst c (parseStringBody fuel rest)

/-- Greedily parse decimal digits into an accumulator. -/
def parseDigitsAcc (acc : Nat) : List Char → Nat × List Char
  | c :: cs =>
      if c.isDigit then parseDigitsAcc (10 * acc + (c.toNat - 48)) cs
      else (acc, c :: cs)
  | [] => (acc, [])

/-- Does a float continuation (`.digits` or an exponent) follow the
integer part?  Mirrors the `NUMBER_RE` regex of CPython `json`. -/
def floatFollows (cs : List Char) : Bool :=
  match cs with
  | [] => false
  | c :: t =>
    if c = '.' then
      match t with
      | d :: _ => d.isDigit
      | [] => false
    else if c = 'e' ∨ c = 'E' then
      match t with
      | [] => false
      | d :: t2 =>
        if d = '+' ∨ d = '-' then
          match t2 with
          | d2 :: _ => d2.isDigit
          | [] => false
        else d.isDigit
    else false

/-- Parse an unsigned JSON integer token (no leading zeros). -/
def parseUNumber (cs : List Char) : Except String (Nat × List Char) :=
  match cs with
  | c :: rest =>
    if c = '0' then
      if floatFollows rest then .error "float literal outside embedding"
      else .ok (0, rest)
    else if c.isDigit then
      let p := parseDigitsAcc (c.toNat - 48) rest
      if floatFollows p.2 then .error "float literal outside embedding"
      else .ok (p.1, p.2)
    else .error "Expecting value"
  | [] => .error "Expecting value"

/-- Parse a JSON number token.  An integer literal (optional minus, no
leading zeros) yields its value; a float literal is outside the
embedding and yields an error. -/
def parseNumber (cs : List Char) : Except String (Int × List Char) :=
  match cs with
  | c :: rest =>
    if c = '-' then
      match parseUNumber rest with
      | .ok (n, rest2) => .ok (-(n : Int), rest2)
      | .error e => .error e
    else
      match parseUNumber (c :: rest) with
      | .ok (n, rest2) => .ok ((n : Int), rest2)
      | .error e => .error e
  | [] => .error "Expecting value"

/-- `d[k] = v` on a Python dict: replace the value in place if the key
exists, else append the pair. -/
def dictInsert (kvs : List (String × PyVal)) (k : String) (v : PyVal) :
    List (String × PyVal) :=
  match kvs with
  | [] => [(k, v)]
  | (k1, v1) :: t => if k1 = k then (k1, v) :: t else (k1, v1) :: dictInsert t k v

mutual
/-- Parse one JSON value at the head of the input (no leading-whitespace
skipping; callers skip).  Fuel decreases on every recursive call. -/
def parseVal (fuel : Nat) (cs : List Char) : Except String (PyVal × List Char) :=
  match fuel with
  | 0 => .error "out of fuel"
  | fuel + 1 =>
    match cs with
    | [] => .error "Expecting value"
    | c :: rest =>
      if c = quoteChar then
        match parseStringBody (rest.length + 1) rest with
        | .error e => .error e
        | .ok (s, rest2) => .ok (.str (String.mk s), rest2)
      else if c = '[' then
        match skipWs rest with
        | [] => .error "Expecting value"
        | c2 :: rest2 =>
          if c2 = ']' then .ok (.list [], rest2)
          else
            match parseVal fuel (c2 :: rest2) with
            | .error e => .error e
            | .ok (v, rest3) => parseElemsTail fuel [v] rest3
      else if c = lbraceChar then
        match skipWs rest with
        | [] => .error "Expecting property name"
        | c2 :: rest2 =>
          if c2 = rbraceChar then .ok (.dict [], rest2)
          else if c2 = quoteChar then
            match parseStringBody (rest2.length + 1) rest2 with
            | .error e => .error e
            | .ok (kcs, rest3) =>
              match skipWs rest3 with
              | [] => .error "Expecting colon delimiter"
              | c3 :: rest4 =>
                if c3 = ':' then
                  match parseVal fuel (skipWs rest4) with
                  | .error e => .error e
                  | .ok (v, rest5) => parseMembersTail fuel [(String.mk kcs, v)] rest5
                else .error "Expecting colon delimiter"
          else .error "Expecting property name"
      else if c = 'n' then
        match rest with
        | 'u' :: 'l' :: 'l' :: rest2 => .ok (.none, rest2)
        | _ => .error "Expecting value"
      else if c = 't' then
        match rest with
        | 'r' :: 'u' :: 'e' :: rest2 => .ok (.bool true, rest2)
        | _ => .error "Expecting value"
      else if c = 'f' then
        match rest with
        | 'a' :: 'l' :: 's' :: 'e' :: rest2 => .ok (.bool false, rest2)
        | _ => .error "Expecting value"
      else
        match parseNumber (c :: rest) with
        | .error e => .error e
        | .ok (n, rest2) => .ok (.int n, rest2)

/-- Parse the continuation of a JSON array after one element: either `]`
or `, element ...`. -/
def parseElemsTail (fuel : Nat) (acc : List PyVal) (cs : List Char) :
    Except String (PyVal × List Char) :=
  match fuel with
  | 0 => .error "out of fuel"
  | fuel + 1 =>
    match skipWs cs with
    | [] => .error "Expecting comma delimiter"
    | c :: rest =>
      if c = ']' then .ok (.list acc, rest)
      else if c = ',' then
        match parseVal fuel (skipWs rest) with
        | .error e => .error e
        | .ok (v, rest2) => parseElemsTail fuel (acc ++ [v]) rest2
      else .error "Expecting comma delimiter"

/-- Parse the continuation of a JSON object after one member: either
the closing brace or `, "key": value ...`. -/
def parseMembersTail (fuel : Nat) (acc : List (String × PyVal)) (cs : List Char) :
    Except String (PyVal × List Char) :=
  match fuel with
  | 0 => .error "out of fuel"
  | fuel + 1 =>
    match skipWs cs with
    | [] => .error "Expecting comma delimiter"
    | c :: rest =>
      if c = rbraceChar then .ok (.dict acc, rest)
      else if c = ',' then
        match skipWs rest with
        | [] => .error "Expecting property name"
        | c2 :: rest2 =>
          if c2 = quoteChar then
            match parseStringBody (rest2.length + 1) rest2 with
            | .error e => .error e
            | .ok (kcs, rest3) =>
              match skipWs rest3 with
              | [] => .error "Expecting colon delimiter"
              | c3 :: rest4 =>
                if c3 = ':' then
                  match parseVal fuel (skipWs rest4) with
                  | .error e => .error e
                  | .ok (v, rest5) => parseMembersTail fuel (dictInsert acc (String.mk kcs) v) rest5
                else .error "Expecting colon delimiter"
          else .error "Expecting property name"
      else .error "Expecting comma delimiter"
end

/-- `json.loads(s)`: parse one value surrounded by optional whitespace. -/
def json_loads (s : String) : Except String PyVal :=
  match parseVal (s.data.length + 1) (skipWs s.data) with
  | .error e => .error e
  | .ok (v, rest) => if (skipWs rest).isEmpty then .ok v else .error "Extra data"

/-- `format_csv_value` (app.py lines 150-156): `None` becomes the empty
string, a dict or list its `json.dumps` text, anything else `str(value)`. -/
def format_csv_value (value : PyVal) : String :=
  match value with
  | .none => ""
  | .dict kvs => json_dumps (.dict kvs)
  | .list xs => json_dumps (.list xs)
  | v => pyStr v

/-! ### The fetcher (app.py lines 159-184) and writer loop (lines 187-274)

The HTTP client is an external collaborator; its observable behaviour for
one request is an `HttpResult` input. -/

/-- Outcome of one HTTP GET, as the program observes it: a response
(status, reason phrase, body), an `HTTPError` raised by `urlopen`, or any
other transport-level exception with its description. -/
inductive HttpResult where
  | success (status : Nat) (reason : String) (body : String)
  | httpError (code : Nat) (reason : String)
  | transportError (msg : String)

/-- The per-identifier result dict: `{"url": ..., "error"?: ..., "data": ...}`.
A missing `error` key reads as `None` via `.get`, modelled as `none`. -/
structure FetchOutcome where
  url : String
  error : Option String
  data : Option (List (String × PyVal))

/-- `API_HOST` (app.py line 11). -/
def API_HOST : String := "https://explorer.natureserve.org"

/-- `API_PATH` (app.py line 12). -/
def API_PATH : String := "/api/data/taxon/"

/-- The request URL for one route (app.py line 161). -/
def taxonUrl (route : String) : String := API_HOST ++ API_PATH ++ route

/-- `extract_data` applied to an arbitrary decoded JSON value: a decoded
non-dict raises `AttributeError` at the first `.get` (app.py line 78). -/
def extract_data_py (full_data : PyVal) : Except String (List (String × PyVal)) :=
  match full_data with
  | .dict kvs => extract_data kvs
  | _ => .error "AttributeError: object has no attribute get"

/-- `fetch_taxon_data` (app.py lines 159-184) given the observable result
of its one HTTP request.  Every branch returns an outcome dict; no
exception escapes. -/
def fetch_taxon_data (route : String) (resp : HttpResult) : FetchOutcome :=
  let url := taxonUrl route
  match resp with
  | .success status reason body =>
    if status ≠ 200 then
      { url := url, error := some (natStr status ++ " " ++ reason), data := Option.none }
    else
      match json_loads body with
      | .error e => { url := url, error := some e, data := Option.none }
      | .ok full_data =>
        match extract_data_py full_data with
        | .ok extracted => { url := url, error := Option.none, data := some extracted }
        | .error e => { url := url, error := some e, data := Option.none }
  | .httpError code reason =>
      { url := url, error := some (natStr code ++ " " ++ reason), data := Option.none }
  | .transportError msg =>
      { url := url, error := some msg, data := Option.none }

/-- The CSV header row (app.py lines 200-218). -/
def headers : List String :=
  ["url", "elementGlobalId", "uniqueId", "speciesGlobalElementGlobalId",
   "primaryCommonName", "scientificName", "lastModified", "grankReasons",
   "habitatComments", "rangeExtent", "marineHabitats", "terrestrialHabitats",
   "riverineHabitats", "palustrineHabitats", "lacustrineHabitats",
   "subterraneanHabitats", "estuarineHabitats"]

/-- Truthiness of `result.get("error")`. -/
def optStrTruthy : Option String → Bool
  | some s => s ≠ ""
  | Option.none => false

/-- One iteration of the writer loop body (app.py lines 231-255): convert
a fetch outcome to a row.  When the error value is falsy and `data` is
`None` (possible only for an exception whose `str` is empty), the Python
code evaluates `None.get(...)` and raises; that raise is the `.error`
case. -/
def makeRow (result : FetchOutcome) : Except String (List String) :=
  if optStrTruthy result.error then
    .ok ([result.url, result.error.getD ""] ++ List.replicate (headers.length - 2) "")
  else
    match result.data with
    | some data =>
      .ok [result.url,
           format_csv_value (dictGetD data "elementGlobalId" .none),
           format_csv_value (dictGetD data "uniqueId" .none),
           format_csv_value (dictGetD data "speciesGlobalElementGlobalId" .none),
           format_csv_value (dictGetD data "primaryCommonName" .none),
           format_csv_value (dictGetD data "scientificName" .none),
           format_csv_value (dictGetD data "lastModified" .none),
           format_csv_value (dictGetD data "grankReasons" .none),
           format_csv_value (dictGetD data "habitatComments" .none),
           format_csv_value (dictGetD data "rangeExtent" .none),
           format_csv_value (dictGetD data "marineHabitats" .none),
           format_csv_value (dictGetD data "terrestrialHabitats" .none),
           format_csv_value (dictGetD data "riverineHabitats" .none),
           format_csv_value (dictGetD data "palustrineHabitats" .none),
           format_csv_value (dictGetD data "lacustrineHabitats" .none),
           format_csv_value (dictGetD data "subterraneanHabitats" .none),
           format_csv_value (dictGetD data "estuarineHabitats" .none)]
    | Option.none => .error "AttributeError: NoneType object has no attribute get"

/-- The writer loop of `fetch_data` (app.py lines 228-258) over the routes
and the observable result of each request: returns the data rows written,
the final `rows_written` counter, and the exception (if any) that aborted
the loop — rows written before the abort are kept, as the file is flushed
after every row. -/
def fetch_data_rows : List (String × HttpResult) → List (List String) × Nat × Option String
  | [] => ([], 0, Option.none)
  | (route, resp) :: rest =>
    match makeRow (fetch_taxon_data route resp) with
    | .error e => ([], 0, some e)
    | .ok row =>
      let r := fetch_data_rows rest
      (row :: r.1, r.2.1 + 1, r.2.2)

/-- The full CSV contents of a run: header row then data rows. -/
def fetch_data_file (pairs : List (String × HttpResult)) : List (List String) :=
  headers :: (fetch_data_rows pairs).1

/-! ### Auxiliary definitions for the statements -/

/-- Condition under which every intermediate `.get` in `extract_data`
lands on a dict: each of `speciesCharacteristics`, `speciesGlobal`,
`rankInfo` (and, when `rankInfo` is a dict, its `rangeExtent`) is absent,
falsy, or itself a mapping. -/
def intermediatesOk (full_data : List (String × PyVal)) : Bool :=
  let sc := pyOr (dictGetD full_data "speciesCharacteristics" emptyDict) emptyDict
  let sg := pyOr (dictGetD full_data "speciesGlobal" emptyDict) emptyDict
  let ri := pyOr (dictGetD full_data "rankInfo" emptyDict) emptyDict
  pyIsDict sc && pyIsDict sg && pyIsDict ri &&
    (match ri with
     | .dict rkvs => pyIsDict (pyOr (dictGetD rkvs "rangeExtent" emptyDict) emptyDict)
     | _ => true)

/-- Modelled from the spec: "for each list entry (skip non-mapping
entries), look up the category-specific nested object, then its English
description field; collect every non-empty description found, in original
order".  The descriptions the spec speaks of are strings. -/
def specDescOf (item : PyVal) (habitat_key desc_key : String) : Option String :=
  match item with
  | .dict kvs =>
    match dictGetD kvs habitat_key .none with
    | .dict hkvs =>
      match dictGetD hkvs desc_key .none with
      | .str s => if s = "" then Option.none else some s
      | _ => Option.none
    | _ => Option.none
  | _ => Option.none

/-- The spec's collected description list, in original order. -/
def specHabitatDescs (xs : List PyVal) (habitat_key desc_key : String) : List String :=
  xs.filterMap (fun item => specDescOf item habitat_key desc_key)

/-- Every description position in the habitat list holds a string or a
falsy value (the situation the spec describes; a truthy non-string would
be stringified by the code, which the spec does not discuss). -/
def descOk (item : PyVal) (habitat_key desc_key : String) : Bool :=
  match item with
  | .dict kvs =>
    match dictGetD kvs habitat_key .none with
    | .dict hkvs =>
      (match dictGetD hkvs desc_key .none with
       | .str _ => true
       | v => !pyTruthy v)
    | _ => true
  | _ => true

/-- All description positions of the list hold strings or falsy values. -/
def descsAreStrings (xs : List PyVal) (habitat_key desc_key : String) : Bool :=
  xs.all (fun item => descOk item habitat_key desc_key)

/-- The post-element continuation of a serialized JSON array: what
`dumpsElems` emits after the first element. -/
def dumpsElemsTail : List PyVal → List Char
  | [] => [']']
  | y :: t => ',' :: ' ' :: (dumpsVal y ++ dumpsElemsTail t)

/-- The post-member continuation of a serialized JSON object. -/
def dumpsMembersTail : List (String × PyVal) → List Char
  | [] => [rbraceChar]
  | (k, v) :: t =>
      ',' :: ' ' :: (jsonQuoteString k ++ ':' :: ' ' :: (dumpsVal v ++ dumpsMembersTail t))

/-- The input following a serialized number does not continue the number
token: empty, or a head that is no digit, no decimal point, no exponent
letter. -/
def numBoundaryOk : List Char → Bool
  | [] => true
  | c :: _ => !(c.isDigit || c = '.' || c = 'e' || c = 'E')

/-! ### State-threaded extractor (for the non-mutation claim)

Python functions act on a mutable heap; `extract_data` only ever reads
its argument.  To state that as a theorem rather than assume it, the
extractor is re-embedded with the input record threaded as explicit state:
each primitive that touches the record returns the record it leaves
behind. -/

/-- A Python computation over the (mutable) input record: returns a result
or an exception, together with the record as it is after the step. -/
def PyStM (α : Type) := List (String × PyVal) → Except String α × List (String × PyVal)

instance : Monad PyStM where
  pure a := fun d => (.ok a, d)
  bind m f := fun d =>
    match m d with
    | (.ok a, d1) => f a d1
    | (.error e, d1) => (.error e, d1)

/-- `full_data.get(k, dflt)`: a read of the record (`dict.get` does not
write, so the record passed on is the record received). -/
def readKeyD (k : String) (dflt : PyVal) : PyStM PyVal :=
  fun d => (.ok (dictGetD d k dflt), d)

/-- An operation on an already-extracted sub-value: it does not touch the
record. -/
def liftPy {α : Type} (r : Except String α) : PyStM α := fun d => (r, d)

/-- `extract_data`, embedded with the input record as explicit state. -/
def extract_data_st : PyStM (List (String × PyVal)) := do
  let sc0 ← readKeyD "speciesCharacteristics" emptyDict
  let species_chars := pyOr sc0 emptyDict
  let sg0 ← readKeyD "speciesGlobal" emptyDict
  let species_global := pyOr sg0 emptyDict
  let ri0 ← readKeyD "rankInfo" emptyDict
  let rank_info := pyOr ri0 emptyDict
  let re0 ← liftPy (pyGetD rank_info "rangeExtent" emptyDict)
  let range_extent := pyOr re0 emptyDict
  let lm0 ← readKeyD "lastModified" .none
  let last_modified_readable := format_last_modified lm0
  let egi ← readKeyD "elementGlobalId" .none
  let uid ← readKeyD "uniqueId" .none
  let speciesGlobalElementGlobalId ← liftPy (pyGet species_global "elementGlobalId")
  let pcn ← readKeyD "primaryCommonName" .none
  let sn ← readKeyD "scientificName" .none
  let gr ← readKeyD "grankReasons" .none
  let habitatComments ← liftPy (pyGet species_chars "habitatComments")
  let rangeExtentDesc ← liftPy (pyGet range_extent "rangeExtentDescEn")
  let extracted : List (String × PyVal) :=
    [("elementGlobalId", egi),
     ("uniqueId", uid),
     ("speciesGlobalElementGlobalId", speciesGlobalElementGlobalId),
     ("primaryCommonName", pcn),
     ("scientificName", sn),
     ("lastModified", last_modified_readable),
     ("grankReasons", gr),
     ("habitatComments", habitatComments),
     ("rangeExtent", rangeExtentDesc)]
  habitat_types.foldlM (fun acc ht => do
      let habitat_data ← liftPy (pyGet species_chars ht.1)
      let descriptions := extract_habitat_descriptions habitat_data ht.2.1 ht.2.2.1
      pure (acc ++ [(ht.2.2.2, descriptions)])) extracted

/-! ## Theorems -/

/-- A value recognized as a dict is a dict. -/
theorem pyIsDict_exists {v : PyVal} (h : pyIsDict v = true) : ∃ kvs, v = .dict kvs := by
  cases v <;> first | exact ⟨_, rfl⟩ | simp [pyIsDict] at h

/-- C10: `format_last_modified` treats any falsy input as absent — in
particular a present-but-empty-string `lastModified` value returns `None`
rather than being passed through, even though the field is not missing. -/
theorem c10_falsy_lastModified_is_absent (v : PyVal) (h : pyTruthy v = false) :
    format_last_modified v = .none := by
  simp [format_last_modified, h]

/-- Witness for C10 at the concrete falsy inputs `""` and `0`. -/
theorem c10_falsy_lastModified_is_absent_witness :
    format_last_modified (.str "") = .none ∧ format_last_modified (.int 0) = .none :=
  ⟨c10_falsy_lastModified_is_absent (.str "") (by decide),
   c10_falsy_lastModified_is_absent (.int 0) (by decide)⟩

/-- C4: timestamp resolution — absent stays absent; the documented example
reformats to `"May 01, 2023, 12:00:00 PM UTC"`; a parsed timestamp is
reformatted; an unparsable non-empty string passes through unchanged. -/
theorem c4_timestamp_resolution :
    format_last_modified .none = .none ∧
    format_last_modified (.str "2023-05-01T12:00:00Z")
      = .str "May 01, 2023, 12:00:00 PM UTC" ∧
    (∀ s dt, fromisoformat (strReplace s "Z" "+00:00") = some dt →
       format_last_modified (.str s) = .str (strftimeReadable dt)) ∧
    (∀ s, s ≠ "" → fromisoformat (strReplace s "Z" "+00:00") = Option.none →
       format_last_modified (.str s) = .str s) := by
  refine ⟨rfl, rfl, ?_, ?_⟩
  · intro s dt h
    have hs : s ≠ "" := by
      intro he
      have h0 : (Option.none : Option PyDateTime) = some dt := by rw [he] at h; exact h
      cases h0
    have ht : pyTruthy (.str s) = true := by simp [pyTruthy, hs]
    simp [format_last_modified, ht, h]
  · intro s hs h
    have ht : pyTruthy (.str s) = true := by simp [pyTruthy, hs]
    simp [format_last_modified, ht, h]

/-- Witness for C4 at a parsable input (naive, space separator, leap day)
and an unparsable one. -/
theorem c4_timestamp_resolution_witness :
    format_last_modified (.str "2024-02-29 23:59:59")
      = .str (strftimeReadable ⟨2024, 2, 29, 23, 59, 59, Option.none⟩) ∧
    format_last_modified (.str "not a date") = .str "not a date" :=
  ⟨c4_timestamp_resolution.2.2.1 "2024-02-29 23:59:59"
     ⟨2024, 2, 29, 23, 59, 59, Option.none⟩ rfl,
   c4_timestamp_resolution.2.2.2 "not a date" (by decide) rfl⟩

/-- C2 counterexample: the header row does not have 16 columns. -/
theorem c2_counterexample : headers.length ≠ 16 := by decide

/-- C2 (amended): every row has the same fixed shape, but with 17 columns
(1 derived source URL + 16 extracted values); a failure row is the URL,
the error message, and 15 empty columns. -/
theorem c2_fixed_row_shape :
    headers.length = 17 ∧
    (∀ r row, makeRow r = .ok row → row.length = 17) ∧
    (∀ r, optStrTruthy r.error = true →
       makeRow r = .ok ([r.url, r.error.getD ""] ++ List.replicate 15 "")) := by
  refine ⟨by decide, ?_, ?_⟩
  · intro r row h
    unfold makeRow at h
    by_cases he : optStrTruthy r.error = true
    · rw [if_pos he] at h
      injection h with h2
      subst h2
      simp [headers]
    · rw [if_neg he] at h
      cases hd : r.data with
      | some data =>
        rw [hd] at h
        injection h with h2
        subst h2
        rfl
      | none => rw [hd] at h; cases h
  · intro r he
    simp [makeRow, he, headers]

/-- Witness for C2's amended statement at a concrete failure outcome. -/
theorem c2_fixed_row_shape_witness :
    makeRow ⟨"u", some "boom", Option.none⟩ = .ok (["u", "boom"] ++ List.replicate 15 "") ∧
    (["u", "boom"] ++ List.replicate 15 "").length = 17 :=
  ⟨c2_fixed_row_shape.2.2 ⟨"u", some "boom", Option.none⟩ (by decide),
   c2_fixed_row_shape.2.1 ⟨"u", some "boom", Option.none⟩ _
     (c2_fixed_row_shape.2.2 ⟨"u", some "boom", Option.none⟩ (by decide))⟩

/-- C5: the fetcher always returns a tagged outcome — non-200 statuses,
`HTTPError`s, transport failures and JSON parse failures each give a
failure outcome with the documented message; a 200 response with valid
JSON whose extraction succeeds gives a success outcome; and every outcome
is tagged (error with no data, or data with no error). -/
theorem c5_fetch_always_tagged_outcome :
    (∀ route st reason body, st ≠ 200 →
       fetch_taxon_data route (.success st reason body) =
         ⟨taxonUrl route, some (natStr st ++ " " ++ reason), Option.none⟩) ∧
    (∀ route code reason,
       fetch_taxon_data route (.httpError code reason) =
         ⟨taxonUrl route, some (natStr code ++ " " ++ reason), Option.none⟩) ∧
    (∀ route msg,
       fetch_taxon_data route (.transportError msg) =
         ⟨taxonUrl route, some msg, Option.none⟩) ∧
    (∀ route reason body e, json_loads body = .error e →
       fetch_taxon_data route (.success 200 reason body) =
         ⟨taxonUrl route, some e, Option.none⟩) ∧
    (∀ route reason body v d, json_loads body = .ok v → extract_data_py v = .ok d →
       fetch_taxon_data route (.success 200 reason body) =
         ⟨taxonUrl route, Option.none, some d⟩) ∧
    (∀ route resp,
       ((fetch_taxon_data route resp).error = Option.none ∧
        (fetch_taxon_data route resp).data ≠ Option.none) ∨
       ((fetch_taxon_data route resp).error ≠ Option.none ∧
        (fetch_taxon_data route resp).data = Option.none)) := by
  refine ⟨?_, ?_, ?_, ?_, ?_, ?_⟩
  · intro route st reason body h
    simp [fetch_taxon_data, h]
  · intro route code reason
    simp [fetch_taxon_data]
  · intro route msg
    simp [fetch_taxon_data]
  · intro route reason body e h
    simp [fetch_taxon_data, h]
  · intro route reason body v d h1 h2
    simp [fetch_taxon_data, h1, h2]
  · intro route resp
    cases resp with
    | success st reason body =>
      by_cases h200 : st = 200
      · subst h200
        simp only [fetch_taxon_data]
        rw [if_neg (by simp)]
        cases hj : json_loads body with
        | error e => simp
        | ok v =>
          cases he : extract_data_py v with
          | ok d => simp [he]
          | error e2 => simp [he]
      · right
        simp [fetch_taxon_data, h200]
    | httpError code reason => simp [fetch_taxon_data]
    | transportError msg => simp [fetch_taxon_data]

/-- Witness for C5 at a 404 `HTTPError`, a non-200 status, and a valid
success response. -/
theorem c5_fetch_always_tagged_outcome_witness :
    fetch_taxon_data "r1" (.httpError 404 "Not Found") =
      ⟨taxonUrl "r1", some "404 Not Found", Option.none⟩ ∧
    fetch_taxon_data "r1" (.success 503 "Service Unavailable" "ignored") =
      ⟨taxonUrl "r1", some ("503" ++ " " ++ "Service Unavailable"), Option.none⟩ ∧
    (fetch_taxon_data "r2" (.success 200 "OK" "\x7b\"scientificName\": \"Lynx rufus\"\x7d")).error
      = Option.none :=
  ⟨by
     have h := c5_fetch_always_tagged_outcome.2.1 "r1" 404 "Not Found"
     simpa using h,
   c5_fetch_always_tagged_outcome.1 "r1" 503 "Service Unavailable" "ignored" (by decide),
   by
     have h := c5_fetch_always_tagged_outcome.2.2.2.2.1 "r2" "OK"
       "\x7b\"scientificName\": \"Lynx rufus\"\x7d"
       (.dict [("scientificName", .str "Lynx rufus")])
       ((extract_data [("scientificName", .str "Lynx rufus")]).toOption.getD [])
       rfl rfl
     rw [h]⟩

/-- C9 (implicit): when extraction raises on a decoded 200-status JSON
body, the fetcher's catch-all converts it into a failure outcome rather
than propagating, and (for a non-empty message) the writer turns it into
a failure row, so the run continues. -/
theorem c9_extract_exception_becomes_failure_outcome :
    ∀ route reason body v e, json_loads body = .ok v → extract_data_py v = .error e →
      fetch_taxon_data route (.success 200 reason body) =
        ⟨taxonUrl route, some e, Option.none⟩ ∧
      (e ≠ "" → makeRow (fetch_taxon_data route (.success 200 reason body)) =
        .ok ([taxonUrl route, e] ++ List.replicate 15 "")) := by
  intro route reason body v e h1 h2
  have hf : fetch_taxon_data route (.success 200 reason body) =
      ⟨taxonUrl route, some e, Option.none⟩ := by
    simp [fetch_taxon_data, h1, h2]
  refine ⟨hf, fun he => ?_⟩
  rw [hf]
  simp [makeRow, optStrTruthy, he, headers]

/-- Witness for C9: a 200 body whose decoded value is a dict with a
string-valued `speciesCharacteristics`, on which extraction raises. -/
theorem c9_extract_exception_becomes_failure_outcome_witness :
    makeRow (fetch_taxon_data "r9"
        (.success 200 "OK" "\x7b\"speciesCharacteristics\": \"oops\"\x7d")) =
      .ok ([taxonUrl "r9", "AttributeError: object has no attribute get"]
            ++ List.replicate 15 "") :=
  (c9_extract_exception_becomes_failure_outcome "r9" "OK"
      "\x7b\"speciesCharacteristics\": \"oops\"\x7d"
      (.dict [("speciesCharacteristics", .str "oops")])
      "AttributeError: object has no attribute get" rfl rfl).2 (by decide)

/-- C6: when no iteration of the write loop raises, exactly one data row
is written per requested identifier (rows written = total requested); a
3-identifier run whose 2nd request returns HTTP 404 yields header plus 3
data rows, the 2nd being the URL, `"404 Not Found"`, and empty remaining
columns. -/
theorem c6_one_row_per_identifier :
    (∀ pairs : List (String × HttpResult),
       (fetch_data_rows pairs).2.2 = Option.none →
         (fetch_data_rows pairs).1.length = pairs.length ∧
         (fetch_data_rows pairs).2.1 = pairs.length) ∧
    (∀ id1 id2 id3 r1 r3 row1 row3,
       makeRow (fetch_taxon_data id1 r1) = .ok row1 →
       makeRow (fetch_taxon_data id3 r3) = .ok row3 →
       fetch_data_file [(id1, r1), (id2, .httpError 404 "Not Found"), (id3, r3)] =
         [headers, row1,
          [taxonUrl id2, "404 Not Found"] ++ List.replicate 15 "", row3]) := by
  constructor
  · intro pairs
    induction pairs with
    | nil => intro h; simp [fetch_data_rows]
    | cons p rest ih =>
      intro h
      obtain ⟨route, resp⟩ := p
      cases hm : makeRow (fetch_taxon_data route resp) with
      | error e =>
        rw [show fetch_data_rows ((route, resp) :: rest) = ([], 0, some e) by
              simp [fetch_data_rows, hm]] at h
        cases h
      | ok row =>
        have hr : fetch_data_rows ((route, resp) :: rest) =
            (row :: (fetch_data_rows rest).1, (fetch_data_rows rest).2.1 + 1,
             (fetch_data_rows rest).2.2) := by
          simp [fetch_data_rows, hm]
        rw [hr] at h ⊢
        obtain ⟨h1, h2⟩ := ih h
        simp [h1, h2]
  · intro id1 id2 id3 r1 r3 row1 row3 h1 h3
    have h2 : makeRow (fetch_taxon_data id2 (.httpError 404 "Not Found")) =
        .ok ([taxonUrl id2, "404 Not Found"] ++ List.replicate 15 "") := by
      have : natStr 404 ++ " " ++ "Not Found" = "404 Not Found" := by decide
      simp [fetch_taxon_data, makeRow, optStrTruthy, this, headers]
    simp [fetch_data_file, fetch_data_rows, h1, h2, h3]

/-- Witness for C6 at a fully concrete 3-identifier run (the 1st
succeeds with data, the 2nd returns HTTP 404, the 3rd succeeds). -/
theorem c6_one_row_per_identifier_witness :
    fetch_data_file
        [("sp1", .success 200 "OK" "\x7b\"scientificName\": \"Lynx rufus\"\x7d"),
         ("sp2", .httpError 404 "Not Found"),
         ("sp3", .success 200 "OK" "\x7b\"elementGlobalId\": 100, \"grankReasons\": [\"a\", \"b\"]\x7d")] =
      [headers,
       ["https://explorer.natureserve.org/api/data/taxon/sp1",
        "", "", "", "", "Lynx rufus", "", "", "", "", "", "", "", "", "", "", ""],
       [taxonUrl "sp2", "404 Not Found"] ++ List.replicate 15 "",
       ["https://explorer.natureserve.org/api/data/taxon/sp3",
        "100", "", "", "", "", "", "[\"a\", \"b\"]", "", "", "", "", "", "", "", "", ""]] :=
  c6_one_row_per_identifier.2 "sp1" "sp2" "sp3"
    (.success 200 "OK" "\x7b\"scientificName\": \"Lynx rufus\"\x7d")
    (.success 200 "OK" "\x7b\"elementGlobalId\": 100, \"grankReasons\": [\"a\", \"b\"]\x7d")
    _ _ rfl rfl

/-- C1 counterexample: on the mapping `{"speciesCharacteristics": "x"}`
(a present but wrongly-typed intermediate), `extract_data` raises
`AttributeError` instead of resolving the affected fields to absent. -/
theorem c1_counterexample :
    extract_data [("speciesCharacteristics", PyVal.str "x")] =
      .error "AttributeError: object has no attribute get" := rfl

/-- C1 (amended): `extract_data` returns a record without raising for
every input mapping whose `speciesCharacteristics`, `speciesGlobal`,
`rankInfo` and `rankInfo.rangeExtent` values are each absent, falsy, or
mappings; a truthy non-mapping there raises (caught by the fetcher). -/
theorem c1_extract_total_on_wellshaped_input :
    ∀ full_data, intermediatesOk full_data = true →
      ∃ r, extract_data full_data = .ok r := by
  intro d h
  unfold intermediatesOk at h
  simp only [Bool.and_eq_true] at h
  obtain ⟨⟨⟨h1, h2⟩, h3⟩, h4⟩ := h
  obtain ⟨sck, hsc⟩ := pyIsDict_exists h1
  obtain ⟨sgk, hsg⟩ := pyIsDict_exists h2
  obtain ⟨rik, hri⟩ := pyIsDict_exists h3
  rw [hri] at h4
  have h4x : pyIsDict (pyOr (dictGetD rik "rangeExtent" emptyDict) emptyDict) = true := h4
  obtain ⟨rek, hre⟩ := pyIsDict_exists h4x
  simp only [extract_data, hsc, hsg, hri, pyGetD, Bind.bind, Except.bind, hre, pyGet,
    habitat_types, List.foldlM]
  exact ⟨_, rfl⟩

/-- Witness for C1's amended statement at a concrete well-shaped input. -/
theorem c1_extract_total_on_wellshaped_input_witness :
    ∃ r, extract_data
        [("rankInfo", .dict [("rangeExtent", .dict [("rangeExtentDescEn", .str "big")])]),
         ("speciesCharacteristics", .dict [("habitatComments", .str "c")])] = .ok r :=
  c1_extract_total_on_wellshaped_input
    [("rankInfo", .dict [("rangeExtent", .dict [("rangeExtentDescEn", .str "big")])]),
     ("speciesCharacteristics", .dict [("habitatComments", .str "c")])] (by decide)


/-- A nonempty string has positive length. -/
theorem length_pos_of_ne_empty {s : String} (h : s ≠ "") : 0 < s.length := by
  cases s with
  | mk data =>
    cases data with
    | nil => exact absurd rfl h
    | cons c cs => simp [String.length]

/-- Appending to a nonempty string stays nonempty. -/
theorem append_left_ne_empty {a : String} (b : String) (h : a ≠ "") : a ++ b ≠ "" := by
  intro hc
  have hl := congrArg String.length hc
  rw [String.length_append] at hl
  have := length_pos_of_ne_empty h
  have h0 : String.length "" = 0 := rfl
  omega

/-- Appending a nonempty string stays nonempty. -/
theorem append_right_ne_empty (a : String) {b : String} (h : b ≠ "") : a ++ b ≠ "" := by
  intro hc
  have hl := congrArg String.length hc
  rw [String.length_append] at hl
  have := length_pos_of_ne_empty h
  have h0 : String.length "" = 0 := rfl
  omega

/-- `natDigits` never returns the empty list. -/
theorem natDigits_ne_nil (n : Nat) : natDigits n ≠ [] := by
  unfold natDigits natDigitsAux
  split <;> simp

/-- `String.mk` of a nonempty list is not the empty string. -/
theorem stringMk_ne_empty {l : List Char} (h : l ≠ []) : String.mk l ≠ "" := by
  intro hc
  exact h (by simpa using congrArg String.data hc)

/-- `str(v)` of a truthy value is never the empty string. -/
theorem pyStr_ne_empty_of_truthy (v : PyVal) (h : pyTruthy v = true) : pyStr v ≠ "" := by
  cases v with
  | none => cases h
  | bool b =>
    cases b with
    | true => decide
    | false => cases h
  | int n =>
    show intStr n ≠ ""
    unfold intStr natStr
    split
    · exact append_left_ne_empty _ (by decide)
    · exact stringMk_ne_empty (natDigits_ne_nil _)
  | str s =>
    simp [pyTruthy] at h
    exact h
  | list xs =>
    show pyRepr (.list xs) ≠ ""
    rw [pyRepr]
    exact append_right_ne_empty _ (by decide)
  | dict kvs =>
    show pyRepr (.dict kvs) ≠ ""
    rw [pyRepr]
    exact append_right_ne_empty _ (by decide)

/-- Every description one loop iteration collects is a nonempty string. -/
theorem habitatDescOf_mem_ne_empty (item : PyVal) (hk dk : String) :
    ∀ d ∈ habitatDescOf item hk dk, d ≠ "" := by
  intro d hd
  cases item with
  | dict kvs =>
    simp only [habitatDescOf] at hd
    cases hob : dictGetD kvs hk .none with
    | dict hkvs =>
      rw [hob] at hd
      simp only [] at hd
      by_cases ht : pyTruthy (dictGetD hkvs dk .none) = true
      · rw [if_pos ht] at hd
        rcases List.mem_singleton.mp hd with rfl
        exact pyStr_ne_empty_of_truthy _ ht
      · rw [if_neg ht] at hd
        cases hd
    | none => rw [hob] at hd; cases hd
    | bool b => rw [hob] at hd; cases hd
    | int n => rw [hob] at hd; cases hd
    | str s => rw [hob] at hd; cases hd
    | list l => rw [hob] at hd; cases hd
  | none => cases hd
  | bool b => cases hd
  | int n => cases hd
  | str s => cases hd
  | list l => cases hd

/-- Every description the full loop collects is a nonempty string. -/
theorem habitatDescs_mem_ne_empty (xs : List PyVal) (hk dk : String) :
    ∀ d ∈ habitatDescs xs hk dk, d ≠ "" := by
  induction xs with
  | nil => intro d hd; cases hd
  | cons item rest ih =>
    intro d hd
    rw [habitatDescs] at hd
    rcases List.mem_append.mp hd with hleft | hright
    · exact habitatDescOf_mem_ne_empty item hk dk d hleft
    · exact ih d hright

/-- `sep.join` of nonempty strings, with at least one part, is nonempty. -/
theorem joinSep_ne_empty (l : List String) (hne : l ≠ [])
    (hall : ∀ d ∈ l, d ≠ "") : joinSep ", " l ≠ "" := by
  cases l with
  | nil => exact absurd rfl hne
  | cons x t =>
    cases t with
    | nil => exact hall x (by simp)
    | cons y t2 =>
      show x ++ ", " ++ joinSep ", " (y :: t2) ≠ ""
      exact append_left_ne_empty _ (append_right_ne_empty _ (by decide))

/-- The innermost step: the code's truthiness test plus `str`, against
the spec's non-empty-string filter, for one description value. -/
theorem descCase (desc : PyVal)
    (h : (match desc with | .str _ => true | v => !pyTruthy v) = true) :
    (if pyTruthy desc = true then [pyStr desc] else []) =
      (match (match desc with
              | .str s => if s = "" then Option.none else some s
              | _ => Option.none) with
       | some s => [s]
       | Option.none => []) := by
  cases desc with
  | str s =>
    by_cases hs : s = ""
    · subst hs; simp [pyTruthy]
    · have ht : pyTruthy (.str s) = true := by simp [pyTruthy, hs]
      simp [ht, pyStr, hs]
  | none => simp [pyTruthy]
  | bool b => simp [pyTruthy] at h; simp [pyTruthy, h]
  | int n => simp [pyTruthy] at h; simp [pyTruthy, h]
  | list l => simp [pyTruthy] at h; simp [pyTruthy, h, List.isEmpty_iff]
  | dict kvs2 => simp [pyTruthy] at h; simp [pyTruthy, h, List.isEmpty_iff]

/-- Under the spec's typing of descriptions, one loop iteration agrees
with the spec's per-entry collector. -/
theorem habitatDescOf_eq_spec (item : PyVal) (hk dk : String)
    (h : descOk item hk dk = true) :
    habitatDescOf item hk dk =
      (match specDescOf item hk dk with
       | some s => [s]
       | Option.none => []) := by
  cases item with
  | dict kvs =>
    simp only [habitatDescOf, specDescOf, descOk] at h ⊢
    cases hob : dictGetD kvs hk .none with
    | dict hkvs =>
      rw [hob] at h
      exact descCase (dictGetD hkvs dk .none) h
    | none => rfl
    | bool b => rfl
    | int n => rfl
    | str s => rfl
    | list l => rfl
  | none => rfl
  | bool b => rfl
  | int n => rfl
  | str s => rfl
  | list l => rfl

/-- Under the spec's typing of descriptions, the code's collector agrees
with the spec's collector. -/
theorem habitatDescs_eq_spec (xs : List PyVal) (hk dk : String)
    (h : descsAreStrings xs hk dk = true) :
    habitatDescs xs hk dk = specHabitatDescs xs hk dk := by
  induction xs with
  | nil => rfl
  | cons item rest ih =>
    rw [descsAreStrings, List.all_cons, Bool.and_eq_true] at h
    obtain ⟨hitem, hrest⟩ := h
    have ihr := ih (by rw [descsAreStrings]; exact hrest)
    rw [habitatDescs, specHabitatDescs, List.filterMap_cons]
    rw [habitatDescOf_eq_spec item hk dk hitem]
    cases specDescOf item hk dk with
    | some s => simp [ihr, specHabitatDescs]
    | none => simp [ihr, specHabitatDescs]

/-- C3: habitat description extraction skips non-mapping entries, collects
every non-empty English description in original order, joins with `", "`;
an absent/non-list input or zero collected descriptions gives `None`,
never the empty string; and the documented example yields `"A, B"`. -/
theorem c3_habitat_description_extraction :
    (∀ v hk dk, pyTruthy v = false ∨ pyIsList v = false →
       extract_habitat_descriptions v hk dk = .none) ∧
    (∀ xs hk dk, descsAreStrings xs hk dk = true →
       extract_habitat_descriptions (.list xs) hk dk =
         (if specHabitatDescs xs hk dk = [] then .none
          else .str (joinSep ", " (specHabitatDescs xs hk dk)))) ∧
    (∀ v hk dk, extract_habitat_descriptions v hk dk ≠ .str "") ∧
    extract_habitat_descriptions
        (.list [.dict [("cat", .dict [("descEn", .str "A")])],
                .dict [("cat", .dict [])],
                .dict [("cat", .dict [("descEn", .str "B")])]]) "cat" "descEn"
      = .str "A, B" := by
  refine ⟨?_, ?_, ?_, rfl⟩
  · intro v hk dk h
    cases h with
    | inl h1 => simp [extract_habitat_descriptions, h1]
    | inr h2 => simp [extract_habitat_descriptions, h2]
  · intro xs hk dk h
    by_cases hxs : xs = []
    · subst hxs
      simp [extract_habitat_descriptions, pyTruthy, specHabitatDescs]
    · have ht : pyTruthy (.list xs) = true := by
        simp [pyTruthy, List.isEmpty_iff, hxs]
      simp only [extract_habitat_descriptions, ht, pyIsList, Bool.not_true, Bool.or_false]
      rw [if_neg (by simp)]
      rw [habitatDescs_eq_spec xs hk dk h]
      by_cases hsp : specHabitatDescs xs hk dk = []
      · simp [hsp]
      · simp [hsp, List.isEmpty_iff]
  · intro v hk dk
    unfold extract_habitat_descriptions
    by_cases hc : (pyTruthy v = false || !pyIsList v) = true
    · rw [if_pos hc]
      intro h
      cases h
    · rw [if_neg hc]
      cases v with
      | list xs =>
        simp only []
        by_cases he : (habitatDescs xs hk dk).isEmpty = true
        · rw [if_pos he]
          intro h
          cases h
        · rw [if_neg he]
          intro h
          injection h with h2
          have hne : habitatDescs xs hk dk ≠ [] := by
            intro hnil
            rw [hnil] at he
            exact he rfl
          exact joinSep_ne_empty _ hne (habitatDescs_mem_ne_empty xs hk dk) h2
      | none => simp [pyIsList] at hc
      | bool b => simp [pyIsList] at hc
      | int n => simp [pyIsList] at hc
      | str s => simp [pyIsList] at hc
      | dict kvs => simp [pyIsList] at hc

/-- Witness for C3 at concrete inputs: a non-list input, and a list whose
second entry lacks the description. -/
theorem c3_habitat_description_extraction_witness :
    extract_habitat_descriptions (.int 5) "cat" "descEn" = .none ∧
    extract_habitat_descriptions
        (.list [.dict [("cat", .dict [("descEn", .str "A")])],
                .dict []]) "cat" "descEn" = .str "A" :=
  ⟨c3_habitat_description_extraction.1 (.int 5) "cat" "descEn" (Or.inr (by decide)),
   by
     have h := c3_habitat_description_extraction.2.1
       [.dict [("cat", .dict [("descEn", .str "A")])], .dict []] "cat" "descEn" (by decide)
     simpa using h⟩

/-- C8: the extractor is pure and non-mutating — running the
state-threaded embedding of `extract_data` returns exactly the pure
function of the input paired with the untouched input record, so two runs
on the same record give identical results and the record is unchanged. -/
theorem c8_extract_pure_and_nonmutating :
    ∀ full_data, extract_data_st full_data = (extract_data full_data, full_data) := by
  intro d
  simp only [extract_data_st, extract_data, readKeyD, liftPy, habitat_types, List.foldlM,
    Bind.bind, Pure.pure, instMonadPyStM, Except.bind, Except.pure, Monad.toBind,
    Applicative.toPure]
  rcases h1 : pyGetD (pyOr (dictGetD d "rankInfo" emptyDict) emptyDict) "rangeExtent" emptyDict with e1 | v1
  · simp [h1]
  · simp only [h1]
    rcases h2 : pyGet (pyOr (dictGetD d "speciesGlobal" emptyDict) emptyDict) "elementGlobalId" with e2 | v2
    · simp [h2]
    · simp only [h2]
      rcases h3 : pyGet (pyOr (dictGetD d "speciesCharacteristics" emptyDict) emptyDict) "habitatComments" with e3 | v3
      · simp [h3]
      · simp only [h3]
        rcases h4 : pyGet (pyOr v1 emptyDict) "rangeExtentDescEn" with e4 | v4
        · simp [h4]
        · simp only [h4]
          rcases h5 : pyGet (pyOr (dictGetD d "speciesCharacteristics" emptyDict) emptyDict) "speciesMarineHabitats" with e5 | v5
          · simp [h5]
          · simp only [h5]
            rcases h6 : pyGet (pyOr (dictGetD d "speciesCharacteristics" emptyDict) emptyDict) "speciesTerrestrialHabitats" with e6 | v6
            · simp [h6]
            · simp only [h6]
              rcases h7 : pyGet (pyOr (dictGetD d "speciesCharacteristics" emptyDict) emptyDict) "speciesRiverineHabitats" with e7 | v7
              · simp [h7]
              · simp only [h7]
                rcases h8 : pyGet (pyOr (dictGetD d "speciesCharacteristics" emptyDict) emptyDict) "speciesPalustrineHabitats" with e8 | v8
                · simp [h8]
                · simp only [h8]
                  rcases h9 : pyGet (pyOr (dictGetD d "speciesCharacteristics" emptyDict) emptyDict) "speciesLacustrineHabitats" with e9 | v9
                  · simp [h9]
                  · simp only [h9]
                    rcases h10 : pyGet (pyOr (dictGetD d "speciesCharacteristics" emptyDict) emptyDict) "speciesSubterraneanHabitats" with e10 | v10
                    · simp [h10]
                    · simp only [h10]
                      rcases h11 : pyGet (pyOr (dictGetD d "speciesCharacteristics" emptyDict) emptyDict) "speciesEstuarineHabitats" with e11 | v11
                      · simp [h11]
                      · simp only [h11]

/-! ### Lemmas for the CSV round-trip claim -/

/-- `Char.ofNat` inverts `toNat` on valid codepoints. -/
theorem charToNat_ofNat {n : Nat} (h : n.isValidChar) : (Char.ofNat n).toNat = n := by
  simp [Char.ofNat, h, Char.ofNatAux, Char.toNat]
  rfl

/-- Characters with different codepoints differ. -/
theorem charNe_of_toNat_ne {c d : Char} (h : c.toNat ≠ d.toNat) : c ≠ d :=
  fun he => h (he ▸ rfl)

/-- Every `Char` codepoint avoids the surrogate range. -/
theorem char_valid_ranges (c : Char) :
    c.toNat < 55296 ∨ (57344 ≤ c.toNat ∧ c.toNat < 1114112) := by
  rcases c.valid with h | ⟨h1, h2⟩
  · exact Or.inl h
  · exact Or.inr ⟨h1, h2⟩

/-- Codepoints below the surrogate range are valid. -/
theorem validChar_of_lt {k : Nat} (h : k < 55296) : Nat.isValidChar k := Or.inl h

/-- `Char.isDigit` in terms of the codepoint. -/
theorem isDigit_iff_toNat (c : Char) : c.isDigit = true ↔ 48 ≤ c.toNat ∧ c.toNat ≤ 57 := by
  simp [Char.isDigit, Char.le_def, Char.toNat]
  constructor
  · intro ⟨h1, h2⟩; exact ⟨h1, h2⟩
  · intro ⟨h1, h2⟩; exact ⟨h1, h2⟩

/-- The digit character of `d < 10` has codepoint `48 + d`. -/
theorem toNat_digitChar {d : Nat} (h : d < 10) : (Char.ofNat (48 + d)).toNat = 48 + d :=
  charToNat_ofNat (validChar_of_lt (by omega))

/-- `natDigitsAux` is fuel-independent above the argument. -/
theorem natDigitsAux_eq_of_lt :
    ∀ n f1 f2, n < f1 → n < f2 → natDigitsAux f1 n = natDigitsAux f2 n := by
  intro n
  induction n using Nat.strong_induction_on with
  | _ n ih =>
    intro f1 f2 h1 h2
    cases f1 with
    | zero => omega
    | succ a =>
      cases f2 with
      | zero => omega
      | succ b =>
        by_cases h10 : n < 10
        · simp [natDigitsAux, h10]
        · have hd : n / 10 < n := by omega
          simp only [natDigitsAux, h10, if_false]
          rw [ih (n / 10) hd a b (by omega) (by omega)]

/-- The recursion equation of `natDigits`. -/
theorem natDigits_step (n : Nat) :
    natDigits n =
      if n < 10 then [Char.ofNat (48 + n)]
      else natDigits (n / 10) ++ [Char.ofNat (48 + n % 10)] := by
  by_cases h10 : n < 10
  · simp [natDigits, natDigitsAux, h10]
  · have : natDigits n = natDigitsAux n (n / 10) ++ [Char.ofNat (48 + n % 10)] := by
      simp [natDigits, natDigitsAux, h10]
    rw [this, natDigitsAux_eq_of_lt (n / 10) n (n / 10 + 1) (by omega) (by omega)]
    simp [natDigits, h10]

/-- Every character of `natDigits n` is a decimal digit codepoint. -/
theorem natDigits_bounds :
    ∀ n, ∀ c ∈ natDigits n, 48 ≤ c.toNat ∧ c.toNat ≤ 57 := by
  intro n
  induction n using Nat.strong_induction_on with
  | _ n ih =>
    intro c hc
    rw [natDigits_step] at hc
    by_cases h10 : n < 10
    · rw [if_pos h10] at hc
      rcases List.mem_singleton.mp hc with rfl
      rw [toNat_digitChar h10]
      omega
    · rw [if_neg h10] at hc
      rcases List.mem_append.mp hc with hl | hr
      · exact ih (n / 10) (by omega) c hl
      · rcases List.mem_singleton.mp hr with rfl
        rw [toNat_digitChar (by omega)]
        omega

/-- The value of the digits of `n` is `n`. -/
theorem natDigits_foldl :
    ∀ n, (natDigits n).foldl (fun a c => 10 * a + (c.toNat - 48)) 0 = n := by
  intro n
  induction n using Nat.strong_induction_on with
  | _ n ih =>
    rw [natDigits_step]
    by_cases h10 : n < 10
    · rw [if_pos h10]
      simp [toNat_digitChar h10]
    · rw [if_neg h10]
      rw [List.foldl_append]
      rw [ih (n / 10) (by omega)]
      simp only [List.foldl_cons, List.foldl_nil]
      rw [toNat_digitChar (by omega)]
      omega

/-- For `n ≥ 1` the digit list starts with a nonzero digit. -/
theorem natDigits_head :
    ∀ n, 1 ≤ n → ∃ c cs, natDigits n = c :: cs ∧ c.toNat ≠ 48 ∧ 48 ≤ c.toNat ∧ c.toNat ≤ 57 := by
  intro n
  induction n using Nat.strong_induction_on with
  | _ n ih =>
    intro h1
    rw [natDigits_step]
    by_cases h10 : n < 10
    · rw [if_pos h10]
      exact ⟨_, _, rfl, by rw [toNat_digitChar h10]; omega,
             by rw [toNat_digitChar h10]; omega, by rw [toNat_digitChar h10]; omega⟩
    · rw [if_neg h10]
      obtain ⟨c, cs, heq, hne, hlo, hhi⟩ := ih (n / 10) (by omega) (by omega)
      exact ⟨c, cs ++ [Char.ofNat (48 + n % 10)], by rw [heq]; rfl, hne, hlo, hhi⟩

/-- `natDigits` is nonempty. -/
theorem natDigits_cons (n : Nat) : ∃ c cs, natDigits n = c :: cs := by
  rw [natDigits_step]
  by_cases h10 : n < 10
  · rw [if_pos h10]; exact ⟨_, _, rfl⟩
  · rw [if_neg h10]
    obtain ⟨c, cs, heq⟩ := natDigits_cons (n / 10)
    exact ⟨c, cs ++ [Char.ofNat (48 + n % 10)], by rw [heq]; rfl⟩
decreasing_by exact Nat.div_lt_self (by omega) (by omega)

/-- Unpacked facts of a number-boundary continuation. -/
theorem numBoundary_facts {c : Char} {t : List Char} (h : numBoundaryOk (c :: t) = true) :
    c.isDigit = false ∧ c ≠ '.' ∧ c ≠ 'e' ∧ c ≠ 'E' := by
  simp [numBoundaryOk] at h
  obtain ⟨⟨⟨a, b⟩, c2⟩, d⟩ := h
  exact ⟨a, b, c2, d⟩

/-- No float continuation begins at a number boundary. -/
theorem floatFollows_false {rest : List Char} (h : numBoundaryOk rest = true) :
    floatFollows rest = false := by
  cases rest with
  | nil => rfl
  | cons c t =>
    obtain ⟨hd, hdot, he, hE⟩ := numBoundary_facts h
    simp [floatFollows, hdot, he, hE]

/-- Greedy digit parsing of a digit block followed by a boundary. -/
theorem parseDigitsAcc_spec :
    ∀ (ds : List Char) (rest : List Char) (acc : Nat),
      (∀ c ∈ ds, 48 ≤ c.toNat ∧ c.toNat ≤ 57) → numBoundaryOk rest = true →
      parseDigitsAcc acc (ds ++ rest) =
        (ds.foldl (fun a c => 10 * a + (c.toNat - 48)) acc, rest) := by
  intro ds
  induction ds with
  | nil =>
    intro rest acc _ hb
    cases rest with
    | nil => rfl
    | cons c t =>
      obtain ⟨hd, _, _, _⟩ := numBoundary_facts hb
      simp [parseDigitsAcc, hd]
  | cons d ds' ih =>
    intro rest acc hds hb
    have hdd : d.isDigit = true :=
      (isDigit_iff_toNat d).mpr (hds d (by simp))
    show parseDigitsAcc acc (d :: (ds' ++ rest)) = _
    simp only [parseDigitsAcc, hdd, if_true]
    rw [ih rest _ (fun c hc => hds c (by simp [hc])) hb]
    rfl

/-- Parsing the serialized digits of `n` recovers `n`. -/
theorem parseUNumber_natDigits (n : Nat) (rest : List Char)
    (hb : numBoundaryOk rest = true) :
    parseUNumber (natDigits n ++ rest) = .ok (n, rest) := by
  by_cases h0 : n = 0
  · subst h0
    show parseUNumber (natDigits 0 ++ rest) = _
    rw [show natDigits 0 = ['0'] from rfl]
    simp [parseUNumber, floatFollows_false hb]
  · obtain ⟨c, cs, heq, hne, hlo, hhi⟩ := natDigits_head n (by omega)
    rw [heq]
    have hc0 : c ≠ '0' := charNe_of_toNat_ne (by rw [show ('0' : Char).toNat = 48 from rfl]; omega)
    have hcd : c.isDigit = true := (isDigit_iff_toNat c).mpr ⟨hlo, hhi⟩
    show parseUNumber (c :: (cs ++ rest)) = _
    simp only [parseUNumber, hc0, if_false, hcd, if_true]
    have hcsd : ∀ x ∈ cs, 48 ≤ x.toNat ∧ x.toNat ≤ 57 := by
      intro x hx
      exact natDigits_bounds n x (by rw [heq]; simp [hx])
    rw [parseDigitsAcc_spec cs rest (c.toNat - 48) hcsd hb]
    have hval : cs.foldl (fun a c => 10 * a + (c.toNat - 48)) (c.toNat - 48) = n := by
      have h1 := natDigits_foldl n
      rw [heq] at h1
      simpa using h1
    simp [hval, floatFollows_false hb]

/-- Parsing the serialized form of a Python integer recovers it. -/
theorem parseNumber_intStr (i : Int) (rest : List Char)
    (hb : numBoundaryOk rest = true) :
    parseNumber ((intStr i).data ++ rest) = .ok (i, rest) := by
  by_cases hneg : i < 0
  · have : (intStr i).data = '-' :: natDigits i.natAbs := by
      simp [intStr, hneg, natStr, String.data_append]
    rw [this]
    show parseNumber ('-' :: (natDigits i.natAbs ++ rest)) = _
    simp only [parseNumber, if_pos rfl]
    rw [parseUNumber_natDigits i.natAbs rest hb]
    simp only []
    have : -(i.natAbs : Int) = i := by omega
    rw [this]
    simp
  · have : (intStr i).data = natDigits i.natAbs := by
      simp [intStr, hneg, natStr]
    rw [this]
    obtain ⟨c, cs, heq⟩ := natDigits_cons i.natAbs
    rw [heq]
    have hlo : 48 ≤ c.toNat := (natDigits_bounds i.natAbs c (by rw [heq]; simp)).1
    have hcm : c ≠ '-' := charNe_of_toNat_ne (by rw [show ('-' : Char).toNat = 45 from rfl]; omega)
    show parseNumber (c :: (cs ++ rest)) = _
    simp only [parseNumber, hcm, if_false]
    rw [show c :: (cs ++ rest) = (c :: cs) ++ rest from rfl, ← heq]
    rw [parseUNumber_natDigits i.natAbs rest hb]
    simp only []
    have : (i.natAbs : Int) = i := by omega
    rw [this]

/-- Hex digit characters decode to their value. -/
theorem hexVal_hexDigitChar {d : Nat} (h : d < 16) : hexVal? (hexDigitChar d) = some d := by
  interval_cases d <;> decide

/-- Four serialized hex digits decode to the serialized value. -/
theorem parseHex4_hex4 {n : Nat} (h : n < 65536) (rest : List Char) :
    parseHex4 (hex4 n ++ rest) = some (n, rest) := by
  show parseHex4 (hexDigitChar (n / 4096 % 16) :: hexDigitChar (n / 256 % 16)
        :: hexDigitChar (n / 16 % 16) :: hexDigitChar (n % 16) :: rest) = _
  simp only [parseHex4, hexVal_hexDigitChar (show n / 4096 % 16 < 16 by omega),
    hexVal_hexDigitChar (show n / 256 % 16 < 16 by omega),
    hexVal_hexDigitChar (show n / 16 % 16 < 16 by omega),
    hexVal_hexDigitChar (show n % 16 < 16 by omega),
    Option.bind_some, Option.bind_eq_bind, Option.some_bind, Option.pure_def]
  have : 4096 * (n / 4096 % 16) + 256 * (n / 256 % 16) + 16 * (n / 16 % 16) + n % 16 = n := by
    omega
  rw [this]

/-- Parser step: closing quote. -/
theorem psb_close (fuel : Nat) (rest : List Char) :
    parseStringBody (fuel + 1) (quoteChar :: rest) = .ok ([], rest) := rfl

/-- Parser step: `\"` escape. -/
theorem psb_quote (fuel : Nat) (cs : List Char) :
    parseStringBody (fuel + 1) ('\\' :: quoteChar :: cs) =
      consFirst quoteChar (parseStringBody fuel cs) := rfl

/-- Parser step: `\\` escape. -/
theorem psb_backslash (fuel : Nat) (cs : List Char) :
    parseStringBody (fuel + 1) ('\\' :: '\\' :: cs) =
      consFirst '\\' (parseStringBody fuel cs) := rfl

/-- Parser step: `\n` escape. -/
theorem psb_n (fuel : Nat) (cs : List Char) :
    parseStringBody (fuel + 1) ('\\' :: 'n' :: cs) =
      consFirst '\n' (parseStringBody fuel cs) := rfl

/-- Parser step: `\t` escape. -/
theorem psb_t (fuel : Nat) (cs : List Char) :
    parseStringBody (fuel + 1) ('\\' :: 't' :: cs) =
      consFirst '\t' (parseStringBody fuel cs) := rfl

/-- Parser step: `\r` escape. -/
theorem psb_r (fuel : Nat) (cs : List Char) :
    parseStringBody (fuel + 1) ('\\' :: 'r' :: cs) =
      consFirst '\r' (parseStringBody fuel cs) := rfl

/-- Parser step: `\b` escape. -/
theorem psb_b (fuel : Nat) (cs : List Char) :
    parseStringBody (fuel + 1) ('\\' :: 'b' :: cs) =
      consFirst (Char.ofNat 8) (parseStringBody fuel cs) := rfl

/-- Parser step: `\f` escape. -/
theorem psb_f (fuel : Nat) (cs : List Char) :
    parseStringBody (fuel + 1) ('\\' :: 'f' :: cs) =
      consFirst (Char.ofNat 12) (parseStringBody fuel cs) := rfl

/-- Parser step: a literal (unescaped) character. -/
theorem psb_literal (fuel : Nat) (c : Char) (cs : List Char)
    (hc1 : c ≠ quoteChar) (hc2 : c ≠ '\\') (hc3 : 32 ≤ c.toNat) :
    parseStringBody (fuel + 1) (c :: cs) = consFirst c (parseStringBody fuel cs) := by
  show (if c = quoteChar then _ else _) = _
  rw [if_neg hc1, if_neg hc2, if_neg (by omega : ¬ c.toNat < 32)]

/-- Parser step: a `\uXXXX` escape outside the surrogate range. -/
theorem psb_u (fuel n : Nat) (cs : List Char) (hlt : n < 65536)
    (hno : ¬(55296 ≤ n ∧ n ≤ 57343)) :
    parseStringBody (fuel + 1) ('\\' :: 'u' :: (hex4 n ++ cs)) =
      consFirst (Char.ofNat n) (parseStringBody fuel cs) := by
  have h1 : parseStringBody (fuel + 1) ('\\' :: 'u' :: (hex4 n ++ cs)) =
      (match parseHex4 (hex4 n ++ cs) with
       | Option.none => .error "Invalid hex escape"
       | some (m, rest3) =>
         if 55296 ≤ m ∧ m ≤ 56319 then
           match rest3 with
           | b1 :: b2 :: rest4 =>
             if b1 = '\\' ∧ b2 = 'u' then
               match parseHex4 rest4 with
               | some (m2, rest5) =>
                 if 56320 ≤ m2 ∧ m2 ≤ 57343 then
                   consFirst (Char.ofNat (65536 + (m - 55296) * 1024 + (m2 - 56320)))
                     (parseStringBody fuel rest5)
                 else .error "lone surrogate escape outside embedding"
               | Option.none => .error "lone surrogate escape outside embedding"
             else .error "lone surrogate escape outside embedding"
           | _ => .error "lone surrogate escape outside embedding"
         else if 56320 ≤ m ∧ m ≤ 57343 then
           .error "lone surrogate escape outside embedding"
         else consFirst (Char.ofNat m) (parseStringBody fuel rest3)) := rfl
  simp only [h1, parseHex4_hex4 hlt cs]
  rw [if_neg (by omega : ¬(55296 ≤ n ∧ n ≤ 56319)),
      if_neg (by omega : ¬(56320 ≤ n ∧ n ≤ 57343))]

/-- Parser step: a surrogate-pair escape recombines into the astral
character. -/
theorem psb_u_pair (fuel u : Nat) (cs : List Char) (hu : u < 1048576) :
    parseStringBody (fuel + 1)
        ('\\' :: 'u' :: (hex4 (55296 + u / 1024) ++
          ('\\' :: 'u' :: (hex4 (56320 + u % 1024) ++ cs)))) =
      consFirst (Char.ofNat (65536 + u)) (parseStringBody fuel cs) := by
  have h1 : parseStringBody (fuel + 1)
      ('\\' :: 'u' :: (hex4 (55296 + u / 1024) ++ ('\\' :: 'u' :: (hex4 (56320 + u % 1024) ++ cs)))) =
      (match parseHex4 (hex4 (55296 + u / 1024) ++ ('\\' :: 'u' :: (hex4 (56320 + u % 1024) ++ cs))) with
       | Option.none => .error "Invalid hex escape"
       | some (m, rest3) =>
         if 55296 ≤ m ∧ m ≤ 56319 then
           match rest3 with
           | b1 :: b2 :: rest4 =>
             if b1 = '\\' ∧ b2 = 'u' then
               match parseHex4 rest4 with
               | some (m2, rest5) =>
                 if 56320 ≤ m2 ∧ m2 ≤ 57343 then
                   consFirst (Char.ofNat (65536 + (m - 55296) * 1024 + (m2 - 56320)))
                     (parseStringBody fuel rest5)
                 else .error "lone surrogate escape outside embedding"
               | Option.none => .error "lone surrogate escape outside embedding"
             else .error "lone surrogate escape outside embedding"
           | _ => .error "lone surrogate escape outside embedding"
         else if 56320 ≤ m ∧ m ≤ 57343 then
           .error "lone surrogate escape outside embedding"
         else consFirst (Char.ofNat m) (parseStringBody fuel rest3)) := rfl
  have hhi : 55296 ≤ 55296 + u / 1024 ∧ 55296 + u / 1024 ≤ 56319 := by omega
  have hlo2 : 56320 ≤ 56320 + u % 1024 ∧ 56320 + u % 1024 ≤ 57343 := by omega
  have harith : 65536 + (55296 + u / 1024 - 55296) * 1024 + (56320 + u % 1024 - 56320)
      = 65536 + u := by omega
  simp [h1, parseHex4_hex4 (show 55296 + u / 1024 < 65536 by omega),
        parseHex4_hex4 (show 56320 + u % 1024 < 65536 by omega), hhi.1, hhi.2,
        hlo2.1, hlo2.2, harith]
  have harith2 : 65536 + u / 1024 * 1024 + u % 1024 = 65536 + u := by omega
  rw [harith2]

/-- Escaping one character emits at least one character. -/
theorem jsonEscapeChar_length_pos (c : Char) : 1 ≤ (jsonEscapeChar c).length := by
  unfold jsonEscapeChar
  repeat' split
  all_goals simp [hex4]

/-- Parsing the escaped body of a string, up to the closing quote,
recovers the string. -/
theorem parseStringBody_escape :
    ∀ (s : List Char) (fuel : Nat) (rest : List Char),
      (jsonEscapeString s).length + rest.length < fuel →
      parseStringBody fuel (jsonEscapeString s ++ (quoteChar :: rest)) = .ok (s, rest) := by
  intro s
  induction s with
  | nil =>
    intro fuel rest hf
    cases fuel with
    | zero => omega
    | succ f => exact psb_close f rest
  | cons c s' ih =>
    intro fuel rest hf
    have hsplit : jsonEscapeString (c :: s') = jsonEscapeChar c ++ jsonEscapeString s' := rfl
    rw [hsplit, List.length_append] at hf
    cases fuel with
    | zero => omega
    | succ f =>
      have hbound : (jsonEscapeString s').length + rest.length < f := by
        have := jsonEscapeChar_length_pos c
        omega
      have hx : jsonEscapeString (c :: s') ++ (quoteChar :: rest)
          = jsonEscapeChar c ++ (jsonEscapeString s' ++ (quoteChar :: rest)) := by
        rw [hsplit, List.append_assoc]
      rw [hx]
      have hrec := ih f rest hbound
      by_cases h1 : c = '\\'
      · subst h1
        rw [show jsonEscapeChar '\\' = ['\\', '\\'] from rfl]
        rw [show (['\\', '\\'] : List Char) ++ (jsonEscapeString s' ++ (quoteChar :: rest))
              = '\\' :: '\\' :: (jsonEscapeString s' ++ (quoteChar :: rest)) from rfl]
        rw [psb_backslash, hrec]
        rfl
      · by_cases h2 : c = quoteChar
        · subst h2
          rw [show jsonEscapeChar quoteChar = ['\\', quoteChar] from rfl]
          rw [show (['\\', quoteChar] : List Char) ++ (jsonEscapeString s' ++ (quoteChar :: rest))
                = '\\' :: quoteChar :: (jsonEscapeString s' ++ (quoteChar :: rest)) from rfl]
          rw [psb_quote, hrec]
          rfl
        · by_cases h3 : c = '\n'
          · subst h3
            rw [show jsonEscapeChar '\n' = ['\\', 'n'] from rfl]
            rw [show (['\\', 'n'] : List Char) ++ (jsonEscapeString s' ++ (quoteChar :: rest))
                  = '\\' :: 'n' :: (jsonEscapeString s' ++ (quoteChar :: rest)) from rfl]
            rw [psb_n, hrec]
            rfl
          · by_cases h4 : c = '\t'
            · subst h4
              rw [show jsonEscapeChar '\t' = ['\\', 't'] from rfl]
              rw [show (['\\', 't'] : List Char) ++ (jsonEscapeString s' ++ (quoteChar :: rest))
                    = '\\' :: 't' :: (jsonEscapeString s' ++ (quoteChar :: rest)) from rfl]
              rw [psb_t, hrec]
              rfl
            · by_cases h5 : c = '\r'
              · subst h5
                rw [show jsonEscapeChar '\r' = ['\\', 'r'] from rfl]
                rw [show (['\\', 'r'] : List Char) ++ (jsonEscapeString s' ++ (quoteChar :: rest))
                      = '\\' :: 'r' :: (jsonEscapeString s' ++ (quoteChar :: rest)) from rfl]
                rw [psb_r, hrec]
                rfl
              · by_cases h6 : c.toNat = 8
                · have hc : c = Char.ofNat 8 := by
                    rw [← Char.ofNat_toNat c, h6]
                  subst hc
                  rw [show jsonEscapeChar (Char.ofNat 8) = ['\\', 'b'] from rfl]
                  rw [show (['\\', 'b'] : List Char) ++ (jsonEscapeString s' ++ (quoteChar :: rest))
                        = '\\' :: 'b' :: (jsonEscapeString s' ++ (quoteChar :: rest)) from rfl]
                  rw [psb_b, hrec]
                  rfl
                · by_cases h7 : c.toNat = 12
                  · have hc : c = Char.ofNat 12 := by
                      rw [← Char.ofNat_toNat c, h7]
                    subst hc
                    rw [show jsonEscapeChar (Char.ofNat 12) = ['\\', 'f'] from rfl]
                    rw [show (['\\', 'f'] : List Char) ++ (jsonEscapeString s' ++ (quoteChar :: rest))
                          = '\\' :: 'f' :: (jsonEscapeString s' ++ (quoteChar :: rest)) from rfl]
                    rw [psb_f, hrec]
                    rfl
                  · by_cases h8 : c.toNat < 32
                    · have he : jsonEscapeChar c = '\\' :: 'u' :: hex4 c.toNat := by
                        rw [jsonEscapeChar, if_neg h1, if_neg h2, if_neg h3, if_neg h4,
                            if_neg h5, if_neg h6, if_neg h7, if_pos h8]
                      rw [he]
                      rw [show ('\\' :: 'u' :: hex4 c.toNat) ++ (jsonEscapeString s' ++ (quoteChar :: rest))
                            = '\\' :: 'u' :: (hex4 c.toNat ++ (jsonEscapeString s' ++ (quoteChar :: rest)))
                          from by simp]
                      rw [psb_u f c.toNat _ (by omega) (by omega), hrec]
                      rw [Char.ofNat_toNat]
                      rfl
                    · by_cases h9 : c.toNat ≤ 126
                      · have he : jsonEscapeChar c = [c] := by
                          rw [jsonEscapeChar, if_neg h1, if_neg h2, if_neg h3, if_neg h4,
                              if_neg h5, if_neg h6, if_neg h7, if_neg h8, if_pos h9]
                        rw [he]
                        rw [show ([c] : List Char) ++ (jsonEscapeString s' ++ (quoteChar :: rest))
                              = c :: (jsonEscapeString s' ++ (quoteChar :: rest)) from rfl]
                        rw [psb_literal f c _ h2 h1 (by omega), hrec]
                        rfl
                      · by_cases h10 : c.toNat < 65536
                        · have he : jsonEscapeChar c = '\\' :: 'u' :: hex4 c.toNat := by
                            rw [jsonEscapeChar, if_neg h1, if_neg h2, if_neg h3, if_neg h4,
                                if_neg h5, if_neg h6, if_neg h7, if_neg h8, if_neg h9, if_pos h10]
                          rw [he]
                          rw [show ('\\' :: 'u' :: hex4 c.toNat) ++ (jsonEscapeString s' ++ (quoteChar :: rest))
                                = '\\' :: 'u' :: (hex4 c.toNat ++ (jsonEscapeString s' ++ (quoteChar :: rest)))
                              from by simp]
                          have hns : ¬(55296 ≤ c.toNat ∧ c.toNat ≤ 57343) := by
                            rcases char_valid_ranges c with hlt | ⟨hge, _⟩
                            · omega
                            · omega
                          rw [psb_u f c.toNat _ h10 hns, hrec]
                          rw [Char.ofNat_toNat]
                          rfl
                        · have he : jsonEscapeChar c =
                              ('\\' :: 'u' :: hex4 (55296 + (c.toNat - 65536) / 1024))
                              ++ ('\\' :: 'u' :: hex4 (56320 + (c.toNat - 65536) % 1024)) := by
                            rw [jsonEscapeChar, if_neg h1, if_neg h2, if_neg h3, if_neg h4,
                                if_neg h5, if_neg h6, if_neg h7, if_neg h8, if_neg h9, if_neg h10]
                          rw [he]
                          rw [show (('\\' :: 'u' :: hex4 (55296 + (c.toNat - 65536) / 1024))
                                ++ ('\\' :: 'u' :: hex4 (56320 + (c.toNat - 65536) % 1024)))
                                ++ (jsonEscapeString s' ++ (quoteChar :: rest))
                              = '\\' :: 'u' :: (hex4 (55296 + (c.toNat - 65536) / 1024) ++
                                  ('\\' :: 'u' :: (hex4 (56320 + (c.toNat - 65536) % 1024) ++
                                    (jsonEscapeString s' ++ (quoteChar :: rest)))))
                              from by simp]
                          have hu : c.toNat - 65536 < 1048576 := by
                            rcases char_valid_ranges c with hlt | ⟨_, hlt2⟩
                            · omega
                            · omega
                          rw [psb_u_pair f (c.toNat - 65536) _ hu, hrec]
                          have : 65536 + (c.toNat - 65536) = c.toNat := by omega
                          rw [this, Char.ofNat_toNat]
                          rfl

/-- Parser step: `null`. -/
theorem parseVal_null (f : Nat) (rest : List Char) :
    parseVal (f + 1) ('n' :: 'u' :: 'l' :: 'l' :: rest) = .ok (.none, rest) := rfl

/-- Parser step: `true`. -/
theorem parseVal_true (f : Nat) (rest : List Char) :
    parseVal (f + 1) ('t' :: 'r' :: 'u' :: 'e' :: rest) = .ok (.bool true, rest) := rfl

/-- Parser step: `false`. -/
theorem parseVal_false (f : Nat) (rest : List Char) :
    parseVal (f + 1) ('f' :: 'a' :: 'l' :: 's' :: 'e' :: rest) = .ok (.bool false, rest) := rfl

/-- Parser step: a string literal. -/
theorem parseVal_quote (f : Nat) (cs : List Char) :
    parseVal (f + 1) (quoteChar :: cs) =
      (match parseStringBody (cs.length + 1) cs with
       | .error e => .error e
       | .ok (s, rest2) => .ok (.str (String.mk s), rest2)) := rfl

/-- Parser step: an array opener. -/
theorem parseVal_lbracket (f : Nat) (cs : List Char) :
    parseVal (f + 1) ('[' :: cs) =
      (match skipWs cs with
       | [] => .error "Expecting value"
       | c2 :: rest2 =>
         if c2 = ']' then .ok (.list [], rest2)
         else
           match parseVal f (c2 :: rest2) with
           | .error e => .error e
           | .ok (v, rest3) => parseElemsTail f [v] rest3) := rfl

/-- Parser step: an object opener. -/
theorem parseVal_lbrace (f : Nat) (cs : List Char) :
    parseVal (f + 1) (lbraceChar :: cs) =
      (match skipWs cs with
       | [] => .error "Expecting property name"
       | c2 :: rest2 =>
         if c2 = rbraceChar then .ok (.dict [], rest2)
         else if c2 = quoteChar then
           match parseStringBody (rest2.length + 1) rest2 with
           | .error e => .error e
           | .ok (kcs, rest3) =>
             match skipWs rest3 with
             | [] => .error "Expecting colon delimiter"
             | c3 :: rest4 =>
               if c3 = ':' then
                 match parseVal f (skipWs rest4) with
                 | .error e => .error e
                 | .ok (v, rest5) => parseMembersTail f [(String.mk kcs, v)] rest5
               else .error "Expecting colon delimiter"
         else .error "Expecting property name") := rfl

/-- One unfolding of the array-tail parser. -/
theorem parseElemsTail_eq (f : Nat) (acc : List PyVal) (cs : List Char) :
    parseElemsTail (f + 1) acc cs =
      (match skipWs cs with
       | [] => .error "Expecting comma delimiter"
       | c :: rest =>
         if c = ']' then .ok (.list acc, rest)
         else if c = ',' then
           match parseVal f (skipWs rest) with
           | .error e => .error e
           | .ok (v, rest2) => parseElemsTail f (acc ++ [v]) rest2
         else .error "Expecting comma delimiter") := rfl

/-- One unfolding of the object-tail parser. -/
theorem parseMembersTail_eq (f : Nat) (acc : List (String × PyVal)) (cs : List Char) :
    parseMembersTail (f + 1) acc cs =
      (match skipWs cs with
       | [] => .error "Expecting comma delimiter"
       | c :: rest =>
         if c = rbraceChar then .ok (.dict acc, rest)
         else if c = ',' then
           match skipWs rest with
           | [] => .error "Expecting property name"
           | c2 :: rest2 =>
             if c2 = quoteChar then
               match parseStringBody (rest2.length + 1) rest2 with
               | .error e => .error e
               | .ok (kcs, rest3) =>
                 match skipWs rest3 with
                 | [] => .error "Expecting colon delimiter"
                 | c3 :: rest4 =>
                   if c3 = ':' then
                     match parseVal f (skipWs rest4) with
                     | .error e => .error e
                     | .ok (v, rest5) => parseMembersTail f (dictInsert acc (String.mk kcs) v) rest5
                   else .error "Expecting colon delimiter"
             else .error "Expecting property name"
         else .error "Expecting comma delimiter") := rfl

/-- Parser step: a number token (the head is a digit or minus sign). -/
theorem parseVal_num_dispatch (f : Nat) (c : Char) (rest : List Char)
    (h : (48 ≤ c.toNat ∧ c.toNat ≤ 57) ∨ c.toNat = 45) :
    parseVal (f + 1) (c :: rest) =
      (match parseNumber (c :: rest) with
       | .error e => .error e
       | .ok (n, rest2) => .ok (.int n, rest2)) := by
  have hq : c ≠ quoteChar := charNe_of_toNat_ne (by
    rw [show quoteChar.toNat = 34 from rfl]; omega)
  have hbk : c ≠ '[' := charNe_of_toNat_ne (by
    rw [show ('[' : Char).toNat = 91 from rfl]; omega)
  have hbr : c ≠ lbraceChar := charNe_of_toNat_ne (by
    rw [show lbraceChar.toNat = 123 from rfl]; omega)
  have hn : c ≠ 'n' := charNe_of_toNat_ne (by
    rw [show ('n' : Char).toNat = 110 from rfl]; omega)
  have ht : c ≠ 't' := charNe_of_toNat_ne (by
    rw [show ('t' : Char).toNat = 116 from rfl]; omega)
  have hf : c ≠ 'f' := charNe_of_toNat_ne (by
    rw [show ('f' : Char).toNat = 102 from rfl]; omega)
  show (if c = quoteChar then _ else _) = _
  rw [if_neg hq, if_neg hbk, if_neg hbr, if_neg hn, if_neg ht, if_neg hf]

/-- `skipWs` leaves a non-whitespace head alone. -/
theorem skipWs_cons {c : Char} (cs : List Char) (h : isJsonWs c = false) :
    skipWs (c :: cs) = c :: cs := by
  simp [skipWs, List.dropWhile_cons, h]

/-- `skipWs` drops a leading space. -/
theorem skipWs_space (cs : List Char) : skipWs (' ' :: cs) = skipWs cs := rfl

/-- The serialized form of any value starts with a character that is not
whitespace, not `]`, and not `}`. -/
theorem dumpsVal_head (v : PyVal) :
    ∃ c cs, dumpsVal v = c :: cs ∧ isJsonWs c = false ∧ c ≠ ']' ∧ c ≠ rbraceChar := by
  cases v with
  | none => refine ⟨'n', _, rfl, ?_, ?_, ?_⟩ <;> decide
  | bool b =>
    cases b with
    | true => refine ⟨'t', _, rfl, ?_, ?_, ?_⟩ <;> decide
    | false => refine ⟨'f', _, rfl, ?_, ?_, ?_⟩ <;> decide
  | int n =>
    show ∃ c cs, (intStr n).data = c :: cs ∧ _
    by_cases hneg : n < 0
    · refine ⟨'-', natDigits n.natAbs, ?_, by decide, by decide, by decide⟩
      simp [intStr, hneg, natStr, String.data_append]
    · obtain ⟨c, cs, heq⟩ := natDigits_cons n.natAbs
      have hb := natDigits_bounds n.natAbs c (by rw [heq]; simp)
      refine ⟨c, cs, ?_, ?_, ?_, ?_⟩
      · simp [intStr, hneg, natStr, heq]
      · have w1 : c ≠ ' ' := charNe_of_toNat_ne (by
          rw [show (' ' : Char).toNat = 32 from rfl]; omega)
        have w2 : c ≠ '\t' := charNe_of_toNat_ne (by
          rw [show ('\t' : Char).toNat = 9 from rfl]; omega)
        have w3 : c ≠ '\n' := charNe_of_toNat_ne (by
          rw [show ('\n' : Char).toNat = 10 from rfl]; omega)
        have w4 : c ≠ '\r' := charNe_of_toNat_ne (by
          rw [show ('\r' : Char).toNat = 13 from rfl]; omega)
        simp [isJsonWs, w1, w2, w3, w4]
      · exact charNe_of_toNat_ne (by rw [show (']' : Char).toNat = 93 from rfl]; omega)
      · exact charNe_of_toNat_ne (by rw [show rbraceChar.toNat = 125 from rfl]; omega)
  | str s => refine ⟨quoteChar, _, rfl, ?_, ?_, ?_⟩ <;> decide
  | list xs => refine ⟨'[', _, rfl, ?_, ?_, ?_⟩ <;> decide
  | dict kvs => refine ⟨lbraceChar, _, rfl, ?_, ?_, ?_⟩ <;> decide

/-- `dumpsElems` of a nonempty list splits into the first element and the
tail continuation. -/
theorem dumpsElems_eq : ∀ (t : List PyVal) (x : PyVal),
    dumpsElems (x :: t) = dumpsVal x ++ dumpsElemsTail t := by
  intro t
  induction t with
  | nil => intro x; rfl
  | cons y t2 ih =>
    intro x
    show dumpsVal x ++ ',' :: ' ' :: dumpsElems (y :: t2) = _
    rw [ih y]
    rfl

/-- `dumpsMembers` of a nonempty list splits into the first member and
the tail continuation. -/
theorem dumpsMembers_eq : ∀ (t : List (String × PyVal)) (k : String) (v : PyVal),
    dumpsMembers ((k, v) :: t) =
      jsonQuoteString k ++ ':' :: ' ' :: (dumpsVal v ++ dumpsMembersTail t) := by
  intro t
  induction t with
  | nil => intro k v; rfl
  | cons m t2 ih =>
    intro k v
    obtain ⟨k2, v2⟩ := m
    show jsonQuoteString k ++ ':' :: ' ' :: (dumpsVal v ++ ',' :: ' ' :: dumpsMembers ((k2, v2) :: t2)) = _
    rw [ih k2 v2]
    rfl

/-- The boundary check only looks at the head character. -/
theorem numBoundaryOk_cons_of (c : Char) (cs : List Char)
    (h : (!(c.isDigit || c = '.' || c = 'e' || c = 'E')) = true) :
    numBoundaryOk (c :: cs) = true := h

/-- The elems-tail continuation starts with `]` or `,`. -/
theorem dumpsElemsTail_head (t : List PyVal) :
    ∃ c cs, dumpsElemsTail t = c :: cs ∧ numBoundaryOk (c :: cs) = true ∧
      isJsonWs c = false := by
  cases t with
  | nil => exact ⟨']', [], rfl, by decide, by decide⟩
  | cons y t2 =>
    exact ⟨',', _, rfl, numBoundaryOk_cons_of ',' _ (by decide), by decide⟩

/-- The members-tail continuation starts with the closing brace or `,`. -/
theorem dumpsMembersTail_head (t : List (String × PyVal)) :
    ∃ c cs, dumpsMembersTail t = c :: cs ∧ numBoundaryOk (c :: cs) = true ∧
      isJsonWs c = false := by
  cases t with
  | nil => exact ⟨rbraceChar, [], rfl, by decide, by decide⟩
  | cons m t2 =>
    obtain ⟨k, v⟩ := m
    exact ⟨',', _, rfl, numBoundaryOk_cons_of ',' _ (by decide), by decide⟩

/-- `String.mk` inverts `String.data`. -/
theorem stringMk_data : ∀ s : String, String.mk s.data = s
  | ⟨_⟩ => rfl

/-- Inserting a fresh key appends. -/
theorem dictInsert_fresh :
    ∀ (acc : List (String × PyVal)) (k : String) (v : PyVal),
      (∀ p ∈ acc, p.1 ≠ k) → dictInsert acc k v = acc ++ [(k, v)] := by
  intro acc
  induction acc with
  | nil => intro k v _; rfl
  | cons p t ih =>
    intro k v h
    obtain ⟨k1, v1⟩ := p
    have hk1 : k1 ≠ k := h (k1, v1) (by simp)
    show (if k1 = k then _ else _) = _
    rw [if_neg hk1, ih k v (fun q hq => h q (by simp [hq]))]
    rfl

/-- A key occurring after a block of unique keys does not occur in the
block. -/
theorem keysUnique_mid :
    ∀ (xs : List String) (k : String) (ys : List String),
      keysUnique (xs ++ k :: ys) = true → ∀ x ∈ xs, x ≠ k := by
  intro xs
  induction xs with
  | nil => intro k ys _ x hx; cases hx
  | cons a xs' ih =>
    intro k ys h x hx
    rw [show (a :: xs') ++ k :: ys = a :: (xs' ++ k :: ys) from rfl] at h
    rw [keysUnique, Bool.and_eq_true] at h
    obtain ⟨hna, hrest⟩ := h
    rcases List.mem_cons.mp hx with rfl | hx'
    · intro hak
      subst hak
      have : (xs' ++ x :: ys).contains x = true := by
        simp [List.elem_iff]
      simp [this] at hna
    · exact ih k ys hrest x hx'

/-- The length of the elems-tail continuation is positive. -/
theorem dumpsElemsTail_length_pos (t : List PyVal) : 1 ≤ (dumpsElemsTail t).length := by
  cases t <;> simp [dumpsElemsTail]

/-- The length of the members-tail continuation is positive. -/
theorem dumpsMembersTail_length_pos (t : List (String × PyVal)) :
    1 ≤ (dumpsMembersTail t).length := by
  cases t with
  | nil => simp [dumpsMembersTail]
  | cons m t2 => obtain ⟨k, v⟩ := m; simp [dumpsMembersTail]


/-- Applied parser step: empty array. -/
theorem parseVal_lbracket_nil (f : Nat) (cs rest2 : List Char)
    (hskip : skipWs cs = ']' :: rest2) :
    parseVal (f + 1) ('[' :: cs) = .ok (.list [], rest2) := by
  rw [parseVal_lbracket, hskip]
  rfl

/-- Applied parser step: nonempty array, given the first element and the
tail continuation results. -/
theorem parseVal_lbracket_full (f : Nat) (cs : List Char) (c2 : Char)
    (rest2 rest3 : List Char) (v : PyVal) (res : Except String (PyVal × List Char))
    (hskip : skipWs cs = c2 :: rest2) (hne : c2 ≠ ']')
    (hp : parseVal f (c2 :: rest2) = .ok (v, rest3))
    (hq : parseElemsTail f [v] rest3 = res) :
    parseVal (f + 1) ('[' :: cs) = res := by
  rw [parseVal_lbracket, hskip]
  show (if c2 = ']' then Except.ok (PyVal.list [], rest2)
        else match parseVal f (c2 :: rest2) with
             | .error e => .error e
             | .ok (v, rest3) => parseElemsTail f [v] rest3) = res
  rw [if_neg hne, hp]
  exact hq

/-- Applied parser step: empty object. -/
theorem parseVal_lbrace_nil (f : Nat) (cs rest2 : List Char)
    (hskip : skipWs cs = rbraceChar :: rest2) :
    parseVal (f + 1) (lbraceChar :: cs) = .ok (.dict [], rest2) := by
  rw [parseVal_lbrace, hskip]
  rfl

/-- Applied parser step: nonempty object, given the key, the first value
and the tail continuation results. -/
theorem parseVal_lbrace_full (f : Nat) (cs : List Char)
    (rest2 rest3 rest4 rest5 : List Char) (kcs : List Char) (v : PyVal)
    (res : Except String (PyVal × List Char))
    (hskip : skipWs cs = quoteChar :: rest2)
    (hs : parseStringBody (rest2.length + 1) rest2 = .ok (kcs, rest3))
    (hc : skipWs rest3 = ':' :: rest4)
    (hp : parseVal f (skipWs rest4) = .ok (v, rest5))
    (hm : parseMembersTail f [(String.mk kcs, v)] rest5 = res) :
    parseVal (f + 1) (lbraceChar :: cs) = res := by
  rw [parseVal_lbrace, hskip]
  show (if quoteChar = rbraceChar then Except.ok (PyVal.dict [], rest2)
        else if quoteChar = quoteChar then
          match parseStringBody (rest2.length + 1) rest2 with
          | .error e => .error e
          | .ok (kcs, rest3) =>
            match skipWs rest3 with
            | [] => Except.error "Expecting colon delimiter"
            | c3 :: rest4 =>
              if c3 = ':' then
                match parseVal f (skipWs rest4) with
                | .error e => .error e
                | .ok (v, rest5) => parseMembersTail f [(String.mk kcs, v)] rest5
              else Except.error "Expecting colon delimiter"
        else Except.error "Expecting property name") = res
  rw [if_neg (by decide : ¬ quoteChar = rbraceChar), if_pos rfl, hs]
  show (match skipWs rest3 with
        | [] => Except.error "Expecting colon delimiter"
        | c3 :: rest4 =>
          if c3 = ':' then
            match parseVal f (skipWs rest4) with
            | .error e => .error e
            | .ok (v, rest5) => parseMembersTail f [(String.mk kcs, v)] rest5
          else Except.error "Expecting colon delimiter") = res
  rw [hc]
  show (if (':' : Char) = ':' then
          match parseVal f (skipWs rest4) with
          | .error e => .error e
          | .ok (v, rest5) => parseMembersTail f [(String.mk kcs, v)] rest5
        else Except.error "Expecting colon delimiter") = res
  rw [if_pos rfl, hp]
  exact hm

/-- Applied parser step: array tail closes. -/
theorem parseElemsTail_close (f : Nat) (acc : List PyVal) (cs rest2 : List Char)
    (hskip : skipWs cs = ']' :: rest2) :
    parseElemsTail (f + 1) acc cs = .ok (.list acc, rest2) := by
  rw [parseElemsTail_eq, hskip]
  rfl

/-- Applied parser step: array tail continues with one element. -/
theorem parseElemsTail_comma_full (f : Nat) (acc : List PyVal)
    (cs rest rest2 : List Char) (v : PyVal) (res : Except String (PyVal × List Char))
    (hskip : skipWs cs = ',' :: rest)
    (hp : parseVal f (skipWs rest) = .ok (v, rest2))
    (hq : parseElemsTail f (acc ++ [v]) rest2 = res) :
    parseElemsTail (f + 1) acc cs = res := by
  rw [parseElemsTail_eq, hskip]
  show (if (',' : Char) = ']' then Except.ok (PyVal.list acc, rest)
        else if (',' : Char) = ',' then
          match parseVal f (skipWs rest) with
          | .error e => .error e
          | .ok (v, rest2) => parseElemsTail f (acc ++ [v]) rest2
        else Except.error "Expecting comma delimiter") = res
  rw [if_neg (by decide : ¬ (',' : Char) = ']'), if_pos rfl, hp]
  exact hq

/-- Applied parser step: object tail closes. -/
theorem parseMembersTail_close (f : Nat) (acc : List (String × PyVal))
    (cs rest2 : List Char) (hskip : skipWs cs = rbraceChar :: rest2) :
    parseMembersTail (f + 1) acc cs = .ok (.dict acc, rest2) := by
  rw [parseMembersTail_eq, hskip]
  rfl

/-- Applied parser step: object tail continues with one member. -/
theorem parseMembersTail_comma_full (f : Nat) (acc : List (String × PyVal))
    (cs rest rest2 rest3 rest4 rest5 : List Char) (kcs : List Char) (v : PyVal)
    (res : Except String (PyVal × List Char))
    (hskip : skipWs cs = ',' :: rest)
    (hskip2 : skipWs rest = quoteChar :: rest2)
    (hs : parseStringBody (rest2.length + 1) rest2 = .ok (kcs, rest3))
    (hc : skipWs rest3 = ':' :: rest4)
    (hp : parseVal f (skipWs rest4) = .ok (v, rest5))
    (hm : parseMembersTail f (dictInsert acc (String.mk kcs) v) rest5 = res) :
    parseMembersTail (f + 1) acc cs = res := by
  rw [parseMembersTail_eq, hskip]
  show (if (',' : Char) = rbraceChar then Except.ok (PyVal.dict acc, rest)
        else if (',' : Char) = ',' then
          match skipWs rest with
          | [] => Except.error "Expecting property name"
          | c2 :: rest2 =>
            if c2 = quoteChar then
              match parseStringBody (rest2.length + 1) rest2 with
              | .error e => .error e
              | .ok (kcs, rest3) =>
                match skipWs rest3 with
                | [] => Except.error "Expecting colon delimiter"
                | c3 :: rest4 =>
                  if c3 = ':' then
                    match parseVal f (skipWs rest4) with
                    | .error e => .error e
                    | .ok (v, rest5) => parseMembersTail f (dictInsert acc (String.mk kcs) v) rest5
                  else Except.error "Expecting colon delimiter"
            else Except.error "Expecting property name"
        else Except.error "Expecting comma delimiter") = res
  rw [if_neg (by decide : ¬ (',' : Char) = rbraceChar), if_pos rfl, hskip2]
  show (if quoteChar = quoteChar then
          match parseStringBody (rest2.length + 1) rest2 with
          | .error e => .error e
          | .ok (kcs, rest3) =>
            match skipWs rest3 with
            | [] => Except.error "Expecting colon delimiter"
            | c3 :: rest4 =>
              if c3 = ':' then
                match parseVal f (skipWs rest4) with
                | .error e => .error e
                | .ok (v, rest5) => parseMembersTail f (dictInsert acc (String.mk kcs) v) rest5
              else Except.error "Expecting colon delimiter"
        else Except.error "Expecting property name") = res
  rw [if_pos rfl, hs]
  show (match skipWs rest3 with
        | [] => Except.error "Expecting colon delimiter"
        | c3 :: rest4 =>
          if c3 = ':' then
            match parseVal f (skipWs rest4) with
            | .error e => .error e
            | .ok (v, rest5) => parseMembersTail f (dictInsert acc (String.mk kcs) v) rest5
          else Except.error "Expecting colon delimiter") = res
  rw [hc]
  show (if (':' : Char) = ':' then
          match parseVal f (skipWs rest4) with
          | .error e => .error e
          | .ok (v, rest5) => parseMembersTail f (dictInsert acc (String.mk kcs) v) rest5
        else Except.error "Expecting colon delimiter") = res
  rw [if_pos rfl, hp]
  exact hm

/-- Round trip of the parser against the serializer, by induction on
fuel: a serialized well-formed value followed by a number boundary parses
back to the value; the array and object tail continuations likewise. -/
theorem parse_dumps_main :
    ∀ fuel : Nat,
      (∀ (v : PyVal) (rest : List Char), pyWF v = true →
        (dumpsVal v).length + rest.length < fuel → numBoundaryOk rest = true →
        parseVal fuel (dumpsVal v ++ rest) = .ok (v, rest)) ∧
      (∀ (acc ys : List PyVal) (rest : List Char), pyWFList ys = true →
        (dumpsElemsTail ys).length + rest.length ≤ fuel →
        parseElemsTail fuel acc (dumpsElemsTail ys ++ rest) = .ok (.list (acc ++ ys), rest)) ∧
      (∀ (acc ms : List (String × PyVal)) (rest : List Char), pyWFDict ms = true →
        keysUnique ((acc ++ ms).map Prod.fst) = true →
        (dumpsMembersTail ms).length + rest.length ≤ fuel →
        parseMembersTail fuel acc (dumpsMembersTail ms ++ rest) = .ok (.dict (acc ++ ms), rest)) := by
  intro fuel
  induction fuel with
  | zero =>
    refine ⟨fun v rest _ h _ => absurd h (by omega), fun acc ys rest _ h => ?_,
            fun acc ms rest _ _ h => ?_⟩
    · have := dumpsElemsTail_length_pos ys
      omega
    · have := dumpsMembersTail_length_pos ms
      omega
  | succ f ih =>
    obtain ⟨ihP, ihQ, ihR⟩ := ih
    refine ⟨?_, ?_, ?_⟩
    -- P: values
    · intro v rest hwf hlen hb
      cases v with
      | none => exact parseVal_null f rest
      | bool b => cases b with
        | true => exact parseVal_true f rest
        | false => exact parseVal_false f rest
      | int n =>
        have hshape : ∃ c cs, (intStr n).data = c :: cs ∧
            ((48 ≤ c.toNat ∧ c.toNat ≤ 57) ∨ c.toNat = 45) := by
          by_cases hneg : n < 0
          · exact ⟨'-', natDigits n.natAbs,
              by simp [intStr, hneg, natStr, String.data_append], Or.inr (by decide)⟩
          · obtain ⟨c, cs, heq⟩ := natDigits_cons n.natAbs
            exact ⟨c, cs, by simp [intStr, hneg, natStr, heq],
              Or.inl (natDigits_bounds _ c (by rw [heq]; simp))⟩
        obtain ⟨c, cs, heq, hfact⟩ := hshape
        have hnum : parseNumber ((intStr n).data ++ rest) = .ok (n, rest) :=
          parseNumber_intStr n rest hb
        rw [heq] at hnum
        rw [show (c :: cs) ++ rest = c :: (cs ++ rest) from rfl] at hnum
        show parseVal (f + 1) ((intStr n).data ++ rest) = _
        rw [heq]
        rw [show (c :: cs) ++ rest = c :: (cs ++ rest) from rfl]
        rw [parseVal_num_dispatch f c (cs ++ rest) hfact]
        rw [hnum]
      | str s =>
        show parseVal (f + 1) (jsonQuoteString s ++ rest) = _
        rw [show jsonQuoteString s ++ rest
              = quoteChar :: (jsonEscapeString s.data ++ (quoteChar :: rest)) from by
            simp [jsonQuoteString]]
        rw [parseVal_quote]
        rw [parseStringBody_escape s.data _ rest (by
          simp only [List.length_append, List.length_cons]
          omega)]
      | list xs =>
        show parseVal (f + 1) ('[' :: (dumpsElems xs ++ rest)) = _
        cases xs with
        | nil =>
          exact parseVal_lbracket_nil f _ rest (by
            rw [show dumpsElems ([] : List PyVal) ++ rest = ']' :: rest from rfl]
            exact skipWs_cons rest (by decide))
        | cons x t =>
          obtain ⟨c, cs, hd, hws, hbr, _⟩ := dumpsVal_head x
          have hwfx : (pyWF x && pyWFList t) = true := hwf
          rw [Bool.and_eq_true] at hwfx
          obtain ⟨ct, cst, hdt, hbt, _⟩ := dumpsElemsTail_head t
          have hlist : dumpsVal (.list (x :: t)) = '[' :: (dumpsVal x ++ dumpsElemsTail t) := by
            rw [show dumpsVal (.list (x :: t)) = '[' :: dumpsElems (x :: t) from rfl,
                dumpsElems_eq t x]
          rw [hlist] at hlen
          simp only [List.length_cons, List.length_append] at hlen
          have hcs : dumpsElems (x :: t) ++ rest
              = c :: (cs ++ (dumpsElemsTail t ++ rest)) := by
            rw [dumpsElems_eq t x, hd]
            simp
          have hskip : skipWs (dumpsElems (x :: t) ++ rest)
              = c :: (cs ++ (dumpsElemsTail t ++ rest)) := by
            rw [hcs]
            exact skipWs_cons _ hws
          have hp : parseVal f (c :: (cs ++ (dumpsElemsTail t ++ rest)))
              = .ok (x, dumpsElemsTail t ++ rest) := by
            rw [show c :: (cs ++ (dumpsElemsTail t ++ rest))
                  = dumpsVal x ++ (dumpsElemsTail t ++ rest) from by rw [hd]; rfl]
            apply ihP x _ hwfx.1
            · simp only [List.length_append]
              omega
            · rw [hdt]
              exact hbt
          have hq : parseElemsTail f [x] (dumpsElemsTail t ++ rest)
              = .ok (.list (x :: t), rest) := by
            have := ihQ [x] t rest hwfx.2 (by omega)
            exact this
          exact parseVal_lbracket_full f _ c _ _ x _ hskip hbr hp hq
      | dict kvs =>
        show parseVal (f + 1) (lbraceChar :: (dumpsMembers kvs ++ rest)) = _
        cases kvs with
        | nil =>
          exact parseVal_lbrace_nil f _ rest (by
            rw [show dumpsMembers ([] : List (String × PyVal)) ++ rest = rbraceChar :: rest from rfl]
            exact skipWs_cons rest (by decide))
        | cons m t =>
          obtain ⟨k, v0⟩ := m
          have hwfd : (keysUnique (((k, v0) :: t).map Prod.fst) && (pyWF v0 && pyWFDict t)) = true := hwf
          rw [Bool.and_eq_true, Bool.and_eq_true] at hwfd
          obtain ⟨hku, hwfv, hwft⟩ := hwfd
          obtain ⟨c, cs, hd, hws, _, _⟩ := dumpsVal_head v0
          obtain ⟨ct, cst, hdt, hbt, _⟩ := dumpsMembersTail_head t
          have hdict : dumpsVal (.dict ((k, v0) :: t))
              = lbraceChar :: (jsonQuoteString k ++ ':' :: ' ' :: (dumpsVal v0 ++ dumpsMembersTail t)) := by
            rw [show dumpsVal (.dict ((k, v0) :: t)) = lbraceChar :: dumpsMembers ((k, v0) :: t) from rfl,
                dumpsMembers_eq t k v0]
          rw [hdict] at hlen
          simp only [List.length_cons, List.length_append, jsonQuoteString] at hlen
          have hm0 : dumpsMembers ((k, v0) :: t) ++ rest
              = quoteChar :: (jsonEscapeString k.data ++
                  (quoteChar :: (':' :: ' ' :: ((dumpsVal v0 ++ dumpsMembersTail t) ++ rest)))) := by
            rw [dumpsMembers_eq t k v0]
            simp [jsonQuoteString]
          have hskip : skipWs (dumpsMembers ((k, v0) :: t) ++ rest)
              = quoteChar :: (jsonEscapeString k.data ++
                  (quoteChar :: (':' :: ' ' :: ((dumpsVal v0 ++ dumpsMembersTail t) ++ rest)))) := by
            rw [hm0]
            exact skipWs_cons _ (by decide)
          have hs : parseStringBody
              ((jsonEscapeString k.data ++
                (quoteChar :: (':' :: ' ' :: ((dumpsVal v0 ++ dumpsMembersTail t) ++ rest)))).length + 1)
              (jsonEscapeString k.data ++
                (quoteChar :: (':' :: ' ' :: ((dumpsVal v0 ++ dumpsMembersTail t) ++ rest))))
              = .ok (k.data, ':' :: ' ' :: ((dumpsVal v0 ++ dumpsMembersTail t) ++ rest)) := by
            apply parseStringBody_escape
            simp only [List.length_append, List.length_cons]
            omega
          have hc2 : skipWs (':' :: ' ' :: ((dumpsVal v0 ++ dumpsMembersTail t) ++ rest))
              = ':' :: (' ' :: ((dumpsVal v0 ++ dumpsMembersTail t) ++ rest)) :=
            skipWs_cons _ (by decide)
          have hp : parseVal f (skipWs (' ' :: ((dumpsVal v0 ++ dumpsMembersTail t) ++ rest)))
              = .ok (v0, dumpsMembersTail t ++ rest) := by
            rw [skipWs_space]
            rw [show (dumpsVal v0 ++ dumpsMembersTail t) ++ rest
                  = dumpsVal v0 ++ (dumpsMembersTail t ++ rest) from by rw [List.append_assoc]]
            rw [show skipWs (dumpsVal v0 ++ (dumpsMembersTail t ++ rest))
                  = dumpsVal v0 ++ (dumpsMembersTail t ++ rest) from by
                rw [hd]
                rw [show (c :: cs) ++ (dumpsMembersTail t ++ rest)
                      = c :: (cs ++ (dumpsMembersTail t ++ rest)) from rfl]
                exact skipWs_cons _ hws]
            apply ihP v0 _ hwfv
            · simp only [List.length_append]
              omega
            · rw [hdt]
              exact hbt
          have hmem : parseMembersTail f [(String.mk k.data, v0)] (dumpsMembersTail t ++ rest)
              = .ok (.dict ((k, v0) :: t), rest) := by
            rw [stringMk_data]
            have := ihR [(k, v0)] t rest hwft hku (by omega)
            exact this
          exact parseVal_lbrace_full f _ _ _ _ _ k.data v0 _ hskip hs hc2 hp hmem
    -- Q: array tails
    · intro acc ys rest hwf hlen
      cases ys with
      | nil =>
        have : parseElemsTail (f + 1) acc (dumpsElemsTail [] ++ rest)
            = .ok (.list acc, rest) := by
          apply parseElemsTail_close
          rw [show dumpsElemsTail ([] : List PyVal) ++ rest = ']' :: rest from rfl]
          exact skipWs_cons rest (by decide)
        rw [this]
        simp
      | cons y t =>
        have hwfy : (pyWF y && pyWFList t) = true := hwf
        rw [Bool.and_eq_true] at hwfy
        obtain ⟨c, cs, hd, hws, _, _⟩ := dumpsVal_head y
        obtain ⟨ct, cst, hdt, hbt, _⟩ := dumpsElemsTail_head t
        have hlen2 : (dumpsVal y).length + (dumpsElemsTail t).length + rest.length + 2 ≤ f + 1 := by
          rw [show dumpsElemsTail (y :: t) = ',' :: ' ' :: (dumpsVal y ++ dumpsElemsTail t) from rfl]
            at hlen
          simp only [List.length_cons, List.length_append] at hlen
          omega
        have hskip : skipWs (dumpsElemsTail (y :: t) ++ rest)
            = ',' :: (' ' :: ((dumpsVal y ++ dumpsElemsTail t) ++ rest)) := by
          rw [show dumpsElemsTail (y :: t) ++ rest
                = ',' :: (' ' :: ((dumpsVal y ++ dumpsElemsTail t) ++ rest)) from rfl]
          exact skipWs_cons _ (by decide)
        have hp : parseVal f (skipWs (' ' :: ((dumpsVal y ++ dumpsElemsTail t) ++ rest)))
            = .ok (y, dumpsElemsTail t ++ rest) := by
          rw [skipWs_space]
          rw [show (dumpsVal y ++ dumpsElemsTail t) ++ rest
                = dumpsVal y ++ (dumpsElemsTail t ++ rest) from by rw [List.append_assoc]]
          rw [show skipWs (dumpsVal y ++ (dumpsElemsTail t ++ rest))
                = dumpsVal y ++ (dumpsElemsTail t ++ rest) from by
              rw [hd]
              rw [show (c :: cs) ++ (dumpsElemsTail t ++ rest)
                    = c :: (cs ++ (dumpsElemsTail t ++ rest)) from rfl]
              exact skipWs_cons _ hws]
          apply ihP y _ hwfy.1
          · simp only [List.length_append]
            omega
          · rw [hdt]
            exact hbt
        have hq : parseElemsTail f (acc ++ [y]) (dumpsElemsTail t ++ rest)
            = .ok (.list (acc ++ y :: t), rest) := by
          have := ihQ (acc ++ [y]) t rest hwfy.2 (by omega)
          rw [show (acc ++ [y]) ++ t = acc ++ y :: t from by simp] at this
          exact this
        exact parseElemsTail_comma_full f acc _ _ _ y _ hskip hp hq
    -- R: object tails
    · intro acc ms rest hwf hku hlen
      cases ms with
      | nil =>
        have : parseMembersTail (f + 1) acc (dumpsMembersTail [] ++ rest)
            = .ok (.dict acc, rest) := by
          apply parseMembersTail_close
          rw [show dumpsMembersTail ([] : List (String × PyVal)) ++ rest
                = rbraceChar :: rest from rfl]
          exact skipWs_cons rest (by decide)
        rw [this]
        simp
      | cons m t =>
        obtain ⟨k, v0⟩ := m
        have hwfd : (pyWF v0 && pyWFDict t) = true := hwf
        rw [Bool.and_eq_true] at hwfd
        obtain ⟨c, cs, hd, hws, _, _⟩ := dumpsVal_head v0
        obtain ⟨ct, cst, hdt, hbt, _⟩ := dumpsMembersTail_head t
        have hlen2 : (jsonEscapeString k.data).length + (dumpsVal v0).length
            + (dumpsMembersTail t).length + rest.length + 6 ≤ f + 1 := by
          rw [show dumpsMembersTail ((k, v0) :: t)
                = ',' :: ' ' :: (jsonQuoteString k ++ ':' :: ' ' :: (dumpsVal v0 ++ dumpsMembersTail t))
              from rfl] at hlen
          simp only [List.length_cons, List.length_append, jsonQuoteString] at hlen
          omega
        have hskip : skipWs (dumpsMembersTail ((k, v0) :: t) ++ rest)
            = ',' :: (' ' :: ((jsonQuoteString k ++ ':' :: ' ' :: (dumpsVal v0 ++ dumpsMembersTail t)) ++ rest)) := by
          rw [show dumpsMembersTail ((k, v0) :: t) ++ rest
                = ',' :: (' ' :: ((jsonQuoteString k ++ ':' :: ' ' :: (dumpsVal v0 ++ dumpsMembersTail t)) ++ rest))
              from rfl]
          exact skipWs_cons _ (by decide)
        have hskip2 : skipWs (' ' :: ((jsonQuoteString k ++ ':' :: ' ' :: (dumpsVal v0 ++ dumpsMembersTail t)) ++ rest))
            = quoteChar :: (jsonEscapeString k.data ++
                (quoteChar :: (':' :: ' ' :: ((dumpsVal v0 ++ dumpsMembersTail t) ++ rest)))) := by
          rw [skipWs_space]
          rw [show (jsonQuoteString k ++ ':' :: ' ' :: (dumpsVal v0 ++ dumpsMembersTail t)) ++ rest
                = quoteChar :: (jsonEscapeString k.data ++
                    (quoteChar :: (':' :: ' ' :: ((dumpsVal v0 ++ dumpsMembersTail t) ++ rest))))
              from by simp [jsonQuoteString]]
          exact skipWs_cons _ (by decide)
        have hs : parseStringBody
            ((jsonEscapeString k.data ++
              (quoteChar :: (':' :: ' ' :: ((dumpsVal v0 ++ dumpsMembersTail t) ++ rest)))).length + 1)
            (jsonEscapeString k.data ++
              (quoteChar :: (':' :: ' ' :: ((dumpsVal v0 ++ dumpsMembersTail t) ++ rest))))
            = .ok (k.data, ':' :: ' ' :: ((dumpsVal v0 ++ dumpsMembersTail t) ++ rest)) := by
          apply parseStringBody_escape
          simp only [List.length_append, List.length_cons]
          omega
        have hc2 : skipWs (':' :: ' ' :: ((dumpsVal v0 ++ dumpsMembersTail t) ++ rest))
            = ':' :: (' ' :: ((dumpsVal v0 ++ dumpsMembersTail t) ++ rest)) :=
          skipWs_cons _ (by decide)
        have hp : parseVal f (skipWs (' ' :: ((dumpsVal v0 ++ dumpsMembersTail t) ++ rest)))
            = .ok (v0, dumpsMembersTail t ++ rest) := by
          rw [skipWs_space]
          rw [show (dumpsVal v0 ++ dumpsMembersTail t) ++ rest
                = dumpsVal v0 ++ (dumpsMembersTail t ++ rest) from by rw [List.append_assoc]]
          rw [show skipWs (dumpsVal v0 ++ (dumpsMembersTail t ++ rest))
                = dumpsVal v0 ++ (dumpsMembersTail t ++ rest) from by
              rw [hd]
              rw [show (c :: cs) ++ (dumpsMembersTail t ++ rest)
                    = c :: (cs ++ (dumpsMembersTail t ++ rest)) from rfl]
              exact skipWs_cons _ hws]
          apply ihP v0 _ hwfd.1
          · simp only [List.length_append]
            omega
          · rw [hdt]
            exact hbt
        have hfresh : ∀ p ∈ acc, p.1 ≠ k := by
          intro p hp2
          have hmap : (acc ++ (k, v0) :: t).map Prod.fst
              = acc.map Prod.fst ++ k :: t.map Prod.fst := by
            simp
          rw [hmap] at hku
          exact keysUnique_mid (acc.map Prod.fst) k (t.map Prod.fst) hku p.1
            (List.mem_map_of_mem Prod.fst hp2)
        have hmem : parseMembersTail f (dictInsert acc (String.mk k.data) v0)
            (dumpsMembersTail t ++ rest) = .ok (.dict (acc ++ (k, v0) :: t), rest) := by
          rw [stringMk_data]
          rw [dictInsert_fresh acc k v0 hfresh]
          have hku2 : keysUnique (((acc ++ [(k, v0)]) ++ t).map Prod.fst) = true := by
            rw [show (acc ++ [(k, v0)]) ++ t = acc ++ (k, v0) :: t from by simp]
            exact hku
          have := ihR (acc ++ [(k, v0)]) t rest hwfd.2 hku2 (by omega)
          rw [show (acc ++ [(k, v0)]) ++ t = acc ++ (k, v0) :: t from by simp] at this
          exact this
        exact parseMembersTail_comma_full f acc _ _ _ _ _ _ k.data v0 _
          hskip hskip2 hs hc2 hp hmem

/-- `json.loads` inverts `json.dumps` on well-formed values. -/
theorem json_loads_dumps (v : PyVal) (h : pyWF v = true) :
    json_loads (json_dumps v) = .ok v := by
  unfold json_loads json_dumps
  obtain ⟨c, cs, hd, hws, _, _⟩ := dumpsVal_head v
  have hskip : skipWs (String.mk (dumpsVal v)).data = dumpsVal v := by
    show skipWs (dumpsVal v) = dumpsVal v
    rw [hd]
    exact skipWs_cons _ hws
  rw [hskip]
  have hp := (parse_dumps_main ((String.mk (dumpsVal v)).data.length + 1)).1 v [] h
    (by show (dumpsVal v).length + ([] : List Char).length < (dumpsVal v).length + 1; simp)
    (by decide)
  rw [List.append_nil] at hp
  rw [hp]
  rfl

/-- C7: structured values round-trip through CSV serialization — for a
list- or dict-valued field (with the keys of every nested dict distinct,
as Python dicts guarantee), `format_csv_value` produces JSON text that
parses back to the original value; `None` serializes to the empty string,
and scalars to their natural string form. -/
theorem c7_csv_value_roundtrip :
    (∀ v, (pyIsList v || pyIsDict v) = true → pyWF v = true →
       json_loads (format_csv_value v) = .ok v) ∧
    format_csv_value .none = "" ∧
    (∀ s, format_csv_value (.str s) = s) ∧
    (∀ n, format_csv_value (.int n) = intStr n) ∧
    (∀ b, format_csv_value (.bool b) = pyStr (.bool b)) := by
  refine ⟨?_, rfl, fun s => rfl, fun n => rfl, fun b => rfl⟩
  intro v hv hwf
  cases v with
  | list xs =>
    show json_loads (json_dumps (.list xs)) = _
    exact json_loads_dumps _ hwf
  | dict kvs =>
    show json_loads (json_dumps (.dict kvs)) = _
    exact json_loads_dumps _ hwf
  | none => cases hv
  | bool b => cases hv
  | int n => cases hv
  | str s => cases hv

/-- Witness for C7 at a concrete nested list value (strings with
characters from every escaping regime, a negative integer, booleans,
`null`, and a nested dict). -/
theorem c7_csv_value_roundtrip_witness :
    json_loads (format_csv_value
        (.list [.str "a b", .int (-20), .none, .bool true,
                .dict [("k", .str "x\ny€𝄞"), ("l", .list [])]]))
      = .ok (.list [.str "a b", .int (-20), .none, .bool true,
                .dict [("k", .str "x\ny€𝄞"), ("l", .list [])]]) :=
  c7_csv_value_roundtrip.1
    (.list [.str "a b", .int (-20), .none, .bool true,
            .dict [("k", .str "x\ny€𝄞"), ("l", .list [])]])
    (by decide) (by decide)
